import Mathlib

/-!
# Verification of the Nova renderer frame / resource-binding engine

Shallow embedding of `src/nova_renderer.cpp` (class `NovaRenderer`):
shader-reflection binding merge (`add_resource_to_bindings`,
`get_shader_module_descriptors`, `create_pipeline_interface`), renderpass
registration (`add_render_pass`, `create_render_passes`), material binding
(`bind_data_to_material_descriptor_sets`, `create_materials_for_pipeline`),
renderpack loading (`load_shaderpack`, `destroy_dynamic_resources`,
`destroy_renderpasses`), renderable registration
(`add_renderable_for_material`) and the per-frame loop (`execute_frame`).

C++ `std::unordered_map` tables are embedded as insertion-ordered
association lists with `emplace` = insert-if-absent semantics, matching the
observable behaviour the renderer relies on (lookup, emplace, clear).
GPU-side objects are opaque handles drawn from a counter; the backend
(`rhi`) is modelled as always succeeding, since backend failure paths are
out of scope of the claims.  Functions that can throw in C++ (`.at` on a
missing key, `Result::value` on an error) return `Option`, with `none` for
the thrown exception.

The file is laid out as all definitions first, then all theorems.
-/

/-- `rhi::DescriptorType`: the resource kinds the reflection step extracts
(`sampled_images`, `uniform_buffers`, `storage_buffers`). -/
inductive DescriptorType where
  | combinedImageSampler
  | uniformBuffer
  | storageBuffer
deriving DecidableEq, Repr

/-- `rhi::ShaderStageFlags` as one boolean per stage that
`create_pipeline_interface` reflects; `|=` is componentwise or. -/
structure StageFlags where
  vertex : Bool := false
  tessControl : Bool := false
  tessEval : Bool := false
  geometry : Bool := false
  fragment : Bool := false
deriving DecidableEq, Repr

/-- Bitwise or of two stage masks (`stages |= shader_stage`). -/
def orFlags (a b : StageFlags) : StageFlags :=
  { vertex := a.vertex || b.vertex
    tessControl := a.tessControl || b.tessControl
    tessEval := a.tessEval || b.tessEval
    geometry := a.geometry || b.geometry
    fragment := a.fragment || b.fragment }

/-- `rhi::ResourceBindingDescription`: one entry of a pipeline's binding
map, as filled in by `add_resource_to_bindings`. -/
structure ResourceBindingDescription where
  set : Nat
  binding : Nat
  type : DescriptorType
  count : Nat
  stages : StageFlags
  is_unbounded : Bool
deriving DecidableEq, Repr

/-- Modelled from the spec: `operator==` on `rhi::ResourceBindingDescription`
(used by `add_resource_to_bindings` as `existing_binding != new_binding`) is
declared in `rhi_types`, which is not under `src/`.  Per the spec's merge
rule, two bindings count as the same resource when their
set / binding / kind / count tuple agrees; the stage mask is not compared. -/
def rbdSameResource (a b : ResourceBindingDescription) : Bool :=
  a.set == b.set && a.binding == b.binding && a.type == b.type && a.count == b.count

/-- The `std::unordered_map<std::string, ResourceBindingDescription>` used
for a pipeline's bindings, as an insertion-ordered association list. -/
abbrev BMap := List (String × ResourceBindingDescription)

/-- Map lookup (`bindings.find(name)`), first matching key. -/
def lookupBMap : BMap → String → Option ResourceBindingDescription
  | [], _ => none
  | (k, v) :: rest, n => if k = n then some v else lookupBMap rest n

/-- In-place overwrite of the entry for an existing key
(`existing_binding.stages |= shader_stage` mutates the stored entry). -/
def updateBMap : BMap → String → ResourceBindingDescription → BMap
  | [], _, _ => []
  | (k, v) :: rest, n, b => if k = n then (k, b) :: rest else (k, v) :: updateBMap rest n b

/-- A resource discovered by SPIRV-Cross reflection
(`spirv_cross::Resource` plus the decorations and type info that
`add_resource_to_bindings` reads from the compiler). -/
structure SpirvResource where
  name : String
  set : Nat
  binding : Nat
  array : List Nat
deriving DecidableEq, Repr

/-- The `new_binding` value built at the top of
`NovaRenderer::add_resource_to_bindings`: count defaults to 1; a declared
array uses `array[0]` as count and is always marked unbounded. -/
def mkNewBinding (stage : StageFlags) (res : SpirvResource) (ty : DescriptorType) :
    ResourceBindingDescription :=
  { set := res.set
    binding := res.binding
    type := ty
    count := match res.array with
      | [] => 1
      | n :: _ => n
    stages := stage
    is_unbounded := !res.array.isEmpty }

/-- Error message for two different resources sharing a name (the
`NOVA_LOG(ERROR)` in `add_resource_to_bindings`). -/
def conflictMsg (n : String) : String :=
  "You have two different uniforms named " ++ n ++ " in different shader stages"

/-- `NovaRenderer::add_resource_to_bindings`: merge one reflected resource
into the pipeline's binding map.  Returns the updated map and the error
messages logged by the call. -/
def addResourceToBindings (bindings : BMap) (stage : StageFlags)
    (res : SpirvResource) (ty : DescriptorType) : BMap × List String :=
  let new_binding := mkNewBinding stage res ty
  match lookupBMap bindings res.name with
  | some existing =>
    if rbdSameResource existing new_binding then
      (updateBMap bindings res.name { existing with stages := orFlags existing.stages stage }, [])
    else
      (bindings, [conflictMsg res.name])
  | none => (bindings ++ [(res.name, new_binding)], [])

/-- Concrete fixture: a sampled image `"tex"` reflected from the vertex
stage at set 0, binding 1. -/
def texVertexBinding : ResourceBindingDescription :=
  mkNewBinding { vertex := true } ⟨"tex", 0, 1, []⟩ DescriptorType.combinedImageSampler

/-- Concrete fixture: a binding map already holding `texVertexBinding`. -/
def texBMap : BMap := [("tex", texVertexBinding)]

/-- Concrete fixture: the same name `"tex"` reflected from the fragment
stage but at a different descriptor set. -/
def texFragResource : SpirvResource := ⟨"tex", 2, 1, []⟩

/-- `spirv_cross::ShaderResources`: the three resource lists that
`get_shader_module_descriptors` walks. -/
structure ShaderModule where
  sampled_images : List SpirvResource := []
  uniform_buffers : List SpirvResource := []
  storage_buffers : List SpirvResource := []
deriving DecidableEq, Repr

/-- The three loops of `get_shader_module_descriptors` run in sequence:
sampled images, then uniform buffers, then storage buffers, each resource
merged with the matching `rhi::DescriptorType`. -/
def moduleResources (m : ShaderModule) : List (SpirvResource × DescriptorType) :=
  m.sampled_images.map (fun r => (r, DescriptorType.combinedImageSampler)) ++
    m.uniform_buffers.map (fun r => (r, DescriptorType.uniformBuffer)) ++
    m.storage_buffers.map (fun r => (r, DescriptorType.storageBuffer))

/-- Merge a list of reflected resources into a binding map, accumulating
the logged error messages in call order. -/
def addResources (stage : StageFlags) :
    BMap → List (SpirvResource × DescriptorType) → BMap × List String
  | m, [] => (m, [])
  | m, (r, ty) :: rest =>
    let p := addResourceToBindings m stage r ty
    let q := addResources stage p.1 rest
    (q.1, p.2 ++ q.2)

/-- `NovaRenderer::get_shader_module_descriptors`: reflect one shader
binary and merge every declared resource into `bindings`.  Returns the new
binding map and the error messages logged by this call. -/
def getShaderModuleDescriptors (spirv : ShaderModule) (stage : StageFlags)
    (bindings : BMap) : BMap × List String :=
  addResources stage bindings (moduleResources spirv)

/-- `shaderpack::PixelFormatEnum` (only the variants the embedded code
touches are needed). -/
inductive PixelFormatEnum where
  | RGBA8
  | RGBA32F
  | Depth
deriving DecidableEq, Repr

/-- `shaderpack::TextureAttachmentInfo`: one texture output of a
renderpass descriptor. -/
structure TextureAttachmentInfo where
  name : String
  pixel_format : PixelFormatEnum := PixelFormatEnum.RGBA8
  clear : Bool := false
deriving DecidableEq, Repr

/-- `shaderpack::RenderPassCreateInfo`: a renderpass descriptor as consumed
by `add_render_pass` and `order_passes`. -/
structure RenderPassCreateInfo where
  name : String
  texture_inputs : List String := []
  texture_outputs : List TextureAttachmentInfo := []
  depth_texture : Option TextureAttachmentInfo := none
deriving DecidableEq, Repr

/-- The texture names a pass produces (its declared texture outputs). -/
def passOutputs (p : RenderPassCreateInfo) : List String :=
  p.texture_outputs.map (fun a => a.name)

/-- Modelled from the spec: a pass is schedulable once every producer of
one of its texture inputs has already been scheduled (an input nobody
produces imposes no constraint).  Part of `shaderpack::order_passes`
(`loading/shaderpack/render_graph_builder.cpp`), which is not under
`src/`; `load_shaderpack` only calls it. -/
def passReady (all : List RenderPassCreateInfo) (doneNames : List String)
    (p : RenderPassCreateInfo) : Bool :=
  p.texture_inputs.all fun i =>
    all.all fun q => decide (i ∈ passOutputs q → q.name ∈ doneNames)

/-- Remove the first element satisfying `pred`, keeping the order of the
rest (declaration-order tie-breaking). -/
def extractFirst {α : Type} (pred : α → Bool) : List α → Option (α × List α)
  | [] => none
  | x :: rest =>
    if pred x then some (x, rest)
    else
      match extractFirst pred rest with
      | some (y, rest') => some (y, x :: rest')
      | none => none

/-- Modelled from the spec: the scheduling loop of
`shaderpack::order_passes` — repeatedly emit the first (declaration order)
ready pass; if none is ready while passes remain, the graph is cyclic and
a configuration error (`none`) is reported. -/
def orderPassesAux (all : List RenderPassCreateInfo) :
    Nat → List RenderPassCreateInfo → List RenderPassCreateInfo →
      Option (List RenderPassCreateInfo)
  | _, [], done => some done.reverse
  | 0, _ :: _, _ => none
  | fuel + 1, r :: rs, done =>
    match extractFirst (passReady all (done.map (fun p => p.name))) (r :: rs) with
    | some (p, rest) => orderPassesAux all fuel rest (p :: done)
    | none => none

/-- Modelled from the spec: `shaderpack::order_passes` — topological order
of the passes over the input/output naming relation, declaration order
breaking ties, `none` on a dependency cycle. -/
def orderPasses (passes : List RenderPassCreateInfo) :
    Option (List RenderPassCreateInfo) :=
  orderPassesAux passes passes.length passes []

/-- Pass `p` consumes a texture that pass `q` produces. -/
def dependsOn (p q : RenderPassCreateInfo) : Prop :=
  ∃ t, t ∈ p.texture_inputs ∧ t ∈ passOutputs q

/-- The input/output naming relation of `passes` contains a dependency
cycle: a pass `p` reaches itself through a (possibly empty) chain of
intermediate passes. -/
def CyclicDeps (passes : List RenderPassCreateInfo) : Prop :=
  ∃ p c, p ∈ passes ∧ (∀ q ∈ c, q ∈ passes) ∧
    List.Chain dependsOn p (c ++ [p])

/-- Every pass of the list is ready at its position, given the names
accumulated so far — the invariant the scheduling loop establishes. -/
def soundFrom (all : List RenderPassCreateInfo) :
    List String → List RenderPassCreateInfo → Prop
  | _, [] => True
  | ns, p :: rest => passReady all ns p = true ∧ soundFrom all (p.name :: ns) rest

/-- Position of the first occurrence of an element in a list. -/
def posIn {α : Type} [DecidableEq α] : List α → α → Nat
  | [], _ => 0
  | x :: rest, p => if x = p then 0 else posIn rest p + 1

/-- Concrete fixture: pass `"cycA"` reads `"t2"` and writes `"t1"`. -/
def cycPassA : RenderPassCreateInfo :=
  { name := "cycA", texture_inputs := ["t2"], texture_outputs := [{ name := "t1" }] }

/-- Concrete fixture: pass `"cycB"` reads `"t1"` and writes `"t2"`,
closing a two-pass dependency cycle with `cycPassA`. -/
def cycPassB : RenderPassCreateInfo :=
  { name := "cycB", texture_inputs := ["t1"], texture_outputs := [{ name := "t2" }] }

/-- Concrete fixture: pass `"depA"` writes `"depthBuffer"`. -/
def depPassA : RenderPassCreateInfo :=
  { name := "depA", texture_outputs := [{ name := "depthBuffer" }] }

/-- Concrete fixture: pass `"depB"` reads `"depthBuffer"` — with
`depPassA` an acyclic two-pass graph. -/
def depPassB : RenderPassCreateInfo :=
  { name := "depB", texture_inputs := ["depthBuffer"] }

/-- Generic lookup in an insertion-ordered association list
(`std::unordered_map::find`). -/
def lookupL {κ ν : Type} [DecidableEq κ] : List (κ × ν) → κ → Option ν
  | [], _ => none
  | (k, v) :: rest, n => if k = n then some v else lookupL rest n

/-- `std::unordered_map::emplace`: insert only if the key is absent. -/
def emplaceL {κ ν : Type} [DecidableEq κ] (l : List (κ × ν)) (k : κ) (v : ν) :
    List (κ × ν) :=
  match lookupL l k with
  | some _ => l
  | none => l ++ [(k, v)]

/-- Modelled from the spec: `shaderpack::TextureCreateInfo` carries a
format with a size policy (absolute or screen-relative); its
`get_size_in_pixels` (shaderpack_data, not under `src/`) evaluates that
policy against the window size.  The embedding records the evaluated pixel
size directly. -/
structure TextureCreateInfo where
  name : String
  size : Nat × Nat
deriving DecidableEq, Repr

/-- Modelled from the spec: the distinguished backbuffer texture name
(`BACKBUFFER_NAME` in constants.hpp, not under `src/`). -/
def backbufferName : String := "Backbuffer"

/-- Modelled from the spec: name of the builtin UI renderpass
(`UI_RENDER_PASS_NAME`). -/
def uiRenderPassName : String := "NovaUI"

/-- Modelled from the spec: name of the builtin per-frame uniform buffer
(`PER_FRAME_DATA_NAME`). -/
def perFrameDataName : String := "PerFrameData"

/-- Modelled from the spec: name of the builtin model-matrix buffer
(`MODEL_MATRIX_BUFFER_NAME`). -/
def modelMatrixBufferName : String := "ModelMatrices"

/-- Modelled from the spec: name of the builtin scene-output render target
(`SCENE_OUTPUT_RENDER_TARGET_NAME`). -/
def sceneOutputName : String := "NovaSceneOutput"

/-- `shaderpack::MaterialPass`: one declared material pass with its
binding-name to resource-name map (iterated in declaration order). -/
structure MaterialPass where
  name : String
  material_name : String
  pipeline : String
  bindings : List (String × String) := []
deriving DecidableEq, Repr

/-- `shaderpack::MaterialData`. -/
structure MaterialData where
  name : String
  passes : List MaterialPass := []
deriving DecidableEq, Repr

/-- `shaderpack::PipelineCreateInfo`: the shader stages
`create_pipeline_interface` reflects. -/
structure PipelineCreateInfo where
  name : String
  pass : String
  vertex_shader : ShaderModule := {}
  tessellation_control_shader : Option ShaderModule := none
  tessellation_evaluation_shader : Option ShaderModule := none
  geometry_shader : Option ShaderModule := none
  fragment_shader : Option ShaderModule := none
deriving DecidableEq, Repr

/-- Reflect an optional shader stage into the accumulated bindings
(the `if(pipeline_create_info.x_shader)` blocks). -/
def reflectOptionalStage (m : Option ShaderModule) (stage : StageFlags)
    (acc : BMap × List String) : BMap × List String :=
  match m with
  | none => acc
  | some sm =>
    let p := getShaderModuleDescriptors sm stage acc.1
    (p.1, acc.2 ++ p.2)

/-- `NovaRenderer::create_pipeline_interface`: reflect the present stages
in order vertex, tessellation control, tessellation evaluation, geometry,
fragment, merging all bindings into one map.  The final backend
`rhi->create_pipeline_interface` is modelled as succeeding, so the result
is the merged binding map plus the logged merge errors. -/
def createPipelineInterface (p : PipelineCreateInfo) : BMap × List String :=
  let a0 := getShaderModuleDescriptors p.vertex_shader { vertex := true } []
  let a1 := reflectOptionalStage p.tessellation_control_shader { tessControl := true } a0
  let a2 := reflectOptionalStage p.tessellation_evaluation_shader { tessEval := true } a1
  let a3 := reflectOptionalStage p.geometry_shader { geometry := true } a2
  reflectOptionalStage p.fragment_shader { fragment := true } a3

/-- Modelled from the spec: `make_render_command(renderable, id)` is
defined outside `src/`; per the spec the command carries the monotonically
assigned renderable id (used purely for external identification). -/
structure StaticMeshRenderCommand where
  id : Nat
deriving DecidableEq, Repr

/-- `MeshBatch<StaticMeshRenderCommand>`: draws sharing one vertex/index
buffer. -/
structure MeshBatch where
  vertex_buffer : Nat
  index_buffer : Nat
  commands : List StaticMeshRenderCommand := []
deriving DecidableEq, Repr

/-- `ProceduralMeshBatch<StaticMeshRenderCommand>`: keyed by the
procedural mesh's id (`batch.mesh.get_key()`). -/
structure ProceduralMeshBatch where
  mesh_key : Nat
  commands : List StaticMeshRenderCommand := []
deriving DecidableEq, Repr

/-- One descriptor write prepared by
`bind_data_to_material_descriptor_sets` (`rhi::DescriptorSetWrite`). -/
structure DescriptorSetWrite where
  set : Nat
  first_binding : Nat
  ty : DescriptorType
  resource : Nat
deriving DecidableEq, Repr

/-- Runtime `MaterialPass`: interface, descriptor sets and the two batch
collections. -/
structure MaterialPassRt where
  pipeline_interface : BMap := []
  descriptor_sets : List Nat := []
  static_mesh_draws : List MeshBatch := []
  static_procedural_mesh_draws : List ProceduralMeshBatch := []
deriving DecidableEq, Repr

/-- Runtime `Pipeline`: backend pipeline handle plus its material passes. -/
structure Pipeline where
  pipeline : Nat
  passes : List MaterialPassRt := []
deriving DecidableEq, Repr

/-- Runtime `Renderpass` (frontend/rendergraph): backend handles, flags and
pipelines. -/
structure Renderpass where
  id : Nat := 0
  is_builtin : Bool := false
  writes_to_backbuffer : Bool := false
  renderpass_handle : Option Nat := none
  framebuffer : Option Nat := none
  pipelines : List Pipeline := []
deriving DecidableEq, Repr

/-- `FullMaterialPassName`. -/
structure FullMaterialPassName where
  material_name : String
  pass_name : String
deriving DecidableEq, Repr

/-- `MaterialPassKey`: indices routing a renderable to its material pass. -/
structure MaterialPassKey where
  renderpass_index : Nat := 0
  pipeline_index : Nat := 0
  material_pass_index : Nat := 0
deriving DecidableEq, Repr

/-- `RenderpassMetadata`: the descriptor plus the names of the pipelines
created for the pass. -/
structure RenderpassMetadata where
  data : RenderPassCreateInfo
  pipeline_names : List String := []
deriving DecidableEq, Repr

/-- Runtime `Mesh`: uploaded static mesh. -/
structure Mesh where
  vertex_buffer : Nat
  index_buffer : Nat
  num_indices : Nat := 0
deriving DecidableEq, Repr

/-- The `NovaRenderer` member state the claims observe.  GPU objects are
opaque handles allocated from `next_handle`; `destroyed_handles` records
every `rhi->destroy_*` call. -/
structure NovaState where
  dynamic_textures : List (String × Nat) := []
  dynamic_texture_infos : List (String × TextureCreateInfo) := []
  renderpasses : List Renderpass := []
  renderpass_metadatas : List (String × RenderpassMetadata) := []
  material_pass_keys : List (FullMaterialPassName × MaterialPassKey) := []
  builtin_renderpasses : List (String × Renderpass) := []
  builtin_images : List (String × Nat) := []
  builtin_buffers : List (String × Nat) := []
  meshes : List (Nat × Mesh) := []
  proc_meshes : List Nat := []
  shaderpack_loaded : Bool := false
  next_handle : Nat := 0
  next_mesh_id : Nat := 0
  next_renderable_id : Nat := 0
  frame_count : Nat := 0
  destroyed_handles : List Nat := []
deriving DecidableEq, Repr

/-- Accumulator of the attachment loop at the top of
`NovaRenderer::add_render_pass`: collected color attachments, the common
framebuffer size, the attachment errors, the local `writes_to_backbuffer`
flag and the flag actually stored on the `Renderpass` object. -/
structure AttachAcc where
  colors : List Nat := []
  fbSize : Nat × Nat := (0, 0)
  errors : List String := []
  wtb : Bool := false
  rpWrites : Bool := false
deriving DecidableEq, Repr

/-- Error logged when a pass writes the backbuffer plus other textures. -/
def backbufferWriteErr (passName : String) : String :=
  "Pass " ++ passName ++ " writes to the backbuffer and other textures, but that is not allowed"

/-- Error logged when an attachment size disagrees with the framebuffer
size established by an earlier attachment. -/
def sizeMismatchErr (attName passName : String) : String :=
  "Attachment " ++ attName ++ " does not match the framebuffer size of pass " ++ passName

/-- One iteration of the `texture_outputs` loop of `add_render_pass`.
`none` models the `dynamic_textures.at` / `dynamic_texture_infos.at` throw
on an unknown attachment name.  The size check only engages once
`framebuffer_size.x > 0`, exactly as in the code. -/
def processAttachment (s : NovaState) (numOutputs : Nat) (passName : String)
    (acc : AttachAcc) (att : TextureAttachmentInfo) : Option AttachAcc :=
  if att.name = backbufferName then
    if numOutputs = 1 then
      some { acc with wtb := true, rpWrites := true }
    else
      some { acc with
        wtb := true
        errors := acc.errors ++ [backbufferWriteErr passName] }
  else
    match lookupL s.dynamic_textures att.name, lookupL s.dynamic_texture_infos att.name with
    | some img, some info =>
      if acc.fbSize.1 > 0 then
        if info.size.1 ≠ acc.fbSize.1 ∨ info.size.2 ≠ acc.fbSize.2 then
          some { acc with
            colors := acc.colors ++ [img]
            errors := acc.errors ++ [sizeMismatchErr att.name passName] }
        else
          some { acc with colors := acc.colors ++ [img] }
      else
        some { acc with colors := acc.colors ++ [img], fbSize := info.size }
    | _, _ => none

/-- The whole `texture_outputs` loop. -/
def foldAttach (s : NovaState) (numOutputs : Nat) (passName : String) :
    AttachAcc → List TextureAttachmentInfo → Option AttachAcc
  | acc, [] => some acc
  | acc, a :: rest =>
    match processAttachment s numOutputs passName acc a with
    | some acc' => foldAttach s numOutputs passName acc' rest
    | none => none

/-- Modelled from the spec: `rhi->create_descriptor_sets(interface, pool)`
(backend code, not under `src/`) allocates one descriptor set per
set index required by the interface. -/
def numDescriptorSets (pipelineInterface : BMap) : Nat :=
  pipelineInterface.foldr (fun e acc => max acc (e.2.set + 1)) 0

/-- Error logged for a material binding resource name that is neither a
dynamic texture nor a builtin buffer. -/
def unknownResourceErr (n : String) : String :=
  "Resource " ++ n ++ " is not known to Nova"

/-- `NovaRenderer::bind_data_to_material_descriptor_sets`: walk the
material's declared {binding name → resource name} pairs in order; for
each, look the binding description up (`.at` throws → `none`), pick the
descriptor set for its set index (`.at` throws → `none`), then resolve the
resource name first against the dynamic textures (a combined image
sampler write), else against the builtin buffers (a uniform buffer write),
else log an error and write nothing for that binding.  Returns the
collected writes and errors. -/
def bindDataToMaterialDescriptorSets (dynTex : List (String × Nat))
    (builtinBufs : List (String × Nat)) (descriptorSets : List Nat)
    (descriptorDescriptions : BMap) :
    List (String × String) → Option (List DescriptorSetWrite × List String)
  | [] => some ([], [])
  | (descriptorName, resourceName) :: rest =>
    match lookupBMap descriptorDescriptions descriptorName with
    | none => none
    | some bindingDesc =>
      match descriptorSets[bindingDesc.set]? with
      | none => none
      | some setHandle =>
        match bindDataToMaterialDescriptorSets dynTex builtinBufs descriptorSets
            descriptorDescriptions rest with
        | none => none
        | some (writes, errs) =>
          match lookupL dynTex resourceName with
          | some image =>
            some ({ set := setHandle, first_binding := bindingDesc.binding,
                    ty := DescriptorType.combinedImageSampler, resource := image } :: writes,
                  errs)
          | none =>
            match lookupL builtinBufs resourceName with
            | some buffer =>
              some ({ set := setHandle, first_binding := bindingDesc.binding,
                      ty := DescriptorType.uniformBuffer, resource := buffer } :: writes,
                    errs)
            | none => some (writes, unknownResourceErr resourceName :: errs)

/-- Accumulator of `create_materials_for_pipeline`: the pipeline's material
passes so far, the global `material_pass_keys` table, the handle counter
and the logged errors. -/
structure MaterialBuildAcc where
  passes : List MaterialPassRt := []
  keys : List (FullMaterialPassName × MaterialPassKey) := []
  nextHandle : Nat := 0
  errors : List String := []
deriving DecidableEq, Repr

/-- The material passes of `materials` whose `pipeline` field names the
given pipeline, in declaration order — the nested loops of
`create_materials_for_pipeline`. -/
def materialPassesFor (pipelineName : String) (materials : List MaterialData) :
    List MaterialPass :=
  (materials.map (fun md => md.passes.filter (fun pd => pd.pipeline = pipelineName))).flatten

/-- One body iteration of `create_materials_for_pipeline`: allocate the
descriptor sets, bind the declared resources, record the
`MaterialPassKey` (emplace keeps an existing entry) and append the pass. -/
def buildMaterialPass (dynTex builtinBufs : List (String × Nat))
    (pipelineInterface : BMap) (templateKey : MaterialPassKey)
    (acc : MaterialBuildAcc) (pd : MaterialPass) : Option MaterialBuildAcc :=
  let n := numDescriptorSets pipelineInterface
  let sets := (List.range n).map (fun i => acc.nextHandle + i)
  match bindDataToMaterialDescriptorSets dynTex builtinBufs sets pipelineInterface
      pd.bindings with
  | none => none
  | some (_, errs) =>
    let full : FullMaterialPassName := ⟨pd.material_name, pd.name⟩
    let key : MaterialPassKey :=
      { templateKey with material_pass_index := acc.passes.length }
    some { passes := acc.passes ++
             [{ pipeline_interface := pipelineInterface, descriptor_sets := sets }],
           keys := emplaceL acc.keys full key,
           nextHandle := acc.nextHandle + n,
           errors := acc.errors ++ errs }

/-- `NovaRenderer::create_materials_for_pipeline`. -/
def buildMaterialPasses (dynTex builtinBufs : List (String × Nat))
    (pipelineInterface : BMap) (templateKey : MaterialPassKey) :
    MaterialBuildAcc → List MaterialPass → Option MaterialBuildAcc
  | acc, [] => some acc
  | acc, pd :: rest =>
    match buildMaterialPass dynTex builtinBufs pipelineInterface templateKey acc pd with
    | none => none
    | some acc' =>
      buildMaterialPasses dynTex builtinBufs pipelineInterface templateKey acc' rest

/-- Accumulator of the pipeline loop inside `add_render_pass`. -/
structure PipeBuildAcc where
  pipelines : List Pipeline := []
  pipelineNames : List String := []
  keys : List (FullMaterialPassName × MaterialPassKey) := []
  nextHandle : Nat := 0
  errors : List String := []
deriving DecidableEq, Repr

/-- One iteration of the pipeline loop of `add_render_pass`: for a
pipeline targeting this pass, build its interface (backend pipeline
creation modelled as succeeding), create its materials, then append the
pipeline and record its metadata name. -/
def buildPipeline (dynTex builtinBufs : List (String × Nat))
    (materials : List MaterialData) (ciName : String) (renderpassIndex : Nat)
    (acc : PipeBuildAcc) (p : PipelineCreateInfo) : Option PipeBuildAcc :=
  if p.pass = ciName then
    let ifaceRes := createPipelineInterface p
    let pipelineHandle := acc.nextHandle
    let templateKey : MaterialPassKey :=
      { renderpass_index := renderpassIndex, pipeline_index := acc.pipelines.length,
        material_pass_index := 0 }
    match buildMaterialPasses dynTex builtinBufs ifaceRes.1 templateKey
        { passes := [], keys := acc.keys, nextHandle := acc.nextHandle + 1, errors := [] }
        (materialPassesFor p.name materials) with
    | none => none
    | some mb =>
      some { pipelines := acc.pipelines ++
               [{ pipeline := pipelineHandle, passes := mb.passes }],
             pipelineNames :=
               if acc.pipelineNames.contains p.name then acc.pipelineNames
               else acc.pipelineNames ++ [p.name],
             keys := mb.keys,
             nextHandle := mb.nextHandle,
             errors := acc.errors ++ ifaceRes.2 ++ mb.errors }
  else
    some acc

/-- The whole pipeline loop of `add_render_pass`. -/
def buildPipelines (dynTex builtinBufs : List (String × Nat))
    (materials : List MaterialData) (ciName : String) (renderpassIndex : Nat) :
    PipeBuildAcc → List PipelineCreateInfo → Option PipeBuildAcc
  | acc, [] => some acc
  | acc, p :: rest =>
    match buildPipeline dynTex builtinBufs materials ciName renderpassIndex acc p with
    | none => none
    | some acc' =>
      buildPipelines dynTex builtinBufs materials ciName renderpassIndex acc' rest

/-- The `Renderpass` object `add_render_pass` registers when the
attachment check passed: id from the metadata-table size, backend handle,
a framebuffer unless the pass writes to the backbuffer. -/
def newRenderpassOf (s : NovaState) (acc : AttachAcc) (pb : PipeBuildAcc) : Renderpass :=
  { id := s.renderpass_metadatas.length
    is_builtin := false
    writes_to_backbuffer := acc.rpWrites
    renderpass_handle := some s.next_handle
    framebuffer := if acc.wtb then none else some (s.next_handle + 1)
    pipelines := pb.pipelines }

/-- The renderer state after `add_render_pass` registers a pass. -/
def registeredStateOf (s : NovaState) (ci : RenderPassCreateInfo) (acc : AttachAcc)
    (pb : PipeBuildAcc) : NovaState :=
  { s with
    renderpasses := s.renderpasses ++ [newRenderpassOf s acc pb]
    renderpass_metadatas := emplaceL s.renderpass_metadatas ci.name
      { data := ci, pipeline_names := pb.pipelineNames }
    material_pass_keys := pb.keys
    next_handle := pb.nextHandle }

/-- The pipeline-loop start accumulator used by `add_render_pass`. -/
def pipeAcc0 (s : NovaState) (acc : AttachAcc) : PipeBuildAcc :=
  { pipelines := [], pipelineNames := [], keys := s.material_pass_keys,
    nextHandle := if acc.wtb then s.next_handle + 1 else s.next_handle + 2,
    errors := [] }

/-- `NovaRenderer::add_render_pass`: process the attachments; on any
attachment error log and return with the state untouched; otherwise create
the backend renderpass, create a framebuffer unless the pass writes to the
backbuffer, build the pipelines and materials, assign
`id := renderpass_metadatas.size()`, append the pass and emplace its
metadata.  `none` models a thrown `.at` on an unknown attachment name.
The depth attachment lookup (`dynamic_textures.find`) performs no state
change and is omitted.  Returns the new state and the logged errors. -/
def addRenderPass (s : NovaState) (ci : RenderPassCreateInfo)
    (pipelines : List PipelineCreateInfo) (materials : List MaterialData) :
    Option (NovaState × List String) :=
  match foldAttach s ci.texture_outputs.length ci.name {} ci.texture_outputs with
  | none => none
  | some acc =>
    if acc.errors.isEmpty then
      match buildPipelines s.dynamic_textures s.builtin_buffers materials ci.name
          s.renderpasses.length (pipeAcc0 s acc) pipelines with
      | none => none
      | some pb => some (registeredStateOf s ci acc pb, pb.errors)
    else
      some (s, acc.errors)

/-- The loop of `create_render_passes` over the ordered pass descriptors,
discarding each call's error log (the code only prints it). -/
def addRenderPasses (ps : List PipelineCreateInfo) (ms : List MaterialData) :
    NovaState → List RenderPassCreateInfo → Option NovaState
  | s, [] => some s
  | s, ci :: rest =>
    match addRenderPass s ci ps ms with
    | none => none
    | some (s', _) => addRenderPasses ps ms s' rest

/-- `NovaRenderer::create_render_passes`: allocate the shared descriptor
pool, then register each pass. -/
def createRenderPasses (s : NovaState) (passes : List RenderPassCreateInfo)
    (ps : List PipelineCreateInfo) (ms : List MaterialData) : Option NovaState :=
  addRenderPasses ps ms { s with next_handle := s.next_handle + 1 } passes

/-- `NovaRenderer::create_dynamic_textures`: create one image per info and
emplace it in both name tables (emplace keeps an existing entry). -/
def createDynamicTextures : NovaState → List TextureCreateInfo → NovaState
  | s, [] => s
  | s, info :: rest =>
    createDynamicTextures
      { s with
        next_handle := s.next_handle + 1
        dynamic_textures := emplaceL s.dynamic_textures info.name s.next_handle
        dynamic_texture_infos := emplaceL s.dynamic_texture_infos info.name info } rest

/-- `NovaRenderer::destroy_dynamic_resources`: destroy every dynamic
texture and clear the handle table.  `dynamic_texture_infos` is *not*
cleared — exactly as in the code. -/
def destroyDynamicResources (s : NovaState) : NovaState :=
  { s with
    destroyed_handles := s.destroyed_handles ++ s.dynamic_textures.map (fun e => e.2)
    dynamic_textures := [] }

/-- GPU handles owned by one renderpass (renderpass, framebuffer,
pipelines). -/
def renderpassHandles (rp : Renderpass) : List Nat :=
  (match rp.renderpass_handle with | some h => [h] | none => []) ++
    (match rp.framebuffer with | some h => [h] | none => []) ++
    rp.pipelines.map (fun p => p.pipeline)

/-- `NovaRenderer::destroy_renderpasses`: destroy the GPU objects of every
non-builtin pass.  The `renderpasses` vector, `renderpass_metadatas` and
`material_pass_keys` tables are *not* cleared — exactly as in the code. -/
def destroyRenderpasses (s : NovaState) : NovaState :=
  { s with destroyed_handles := s.destroyed_handles ++
      ((s.renderpasses.filter (fun rp => !rp.is_builtin)).map renderpassHandles).flatten }

/-- `shaderpack::ShaderpackData` as consumed by `load_shaderpack`. -/
structure ShaderpackData where
  passes : List RenderPassCreateInfo := []
  builtin_passes : List String := []
  textures : List TextureCreateInfo := []
  pipelines : List PipelineCreateInfo := []
  materials : List MaterialData := []
deriving DecidableEq, Repr

/-- The builtin-pass loop at the end of `load_shaderpack`: append each
named builtin pass to the submission list; an unknown name only logs. -/
def appendBuiltinPasses : NovaState → List String → NovaState
  | s, [] => s
  | s, n :: rest =>
    match lookupL s.builtin_renderpasses n with
    | some rp => appendBuiltinPasses { s with renderpasses := s.renderpasses ++ [rp] } rest
    | none => appendBuiltinPasses s rest

/-- `NovaRenderer::load_shaderpack`: if a pack is already loaded, destroy
the dynamic resources and the renderpasses' GPU objects; order the passes
(`order_passes(...).value` throws on a cyclic graph → `none`); create the
dynamic textures; create the render passes; append the builtin passes; and
mark the pack loaded. -/
def loadShaderpack (s : NovaState) (data : ShaderpackData) : Option NovaState :=
  let s1 := if s.shaderpack_loaded then destroyRenderpasses (destroyDynamicResources s) else s
  match orderPasses data.passes with
  | none => none
  | some ordered =>
    let s2 := createDynamicTextures s1 data.textures
    match createRenderPasses s2 ordered data.pipelines data.materials with
    | none => none
    | some s3 =>
      let s4 := appendBuiltinPasses s3 data.builtin_passes
      some { s4 with shaderpack_loaded := true }

/-- The builtin UI renderpass descriptor built in
`create_builtin_renderpasses`. -/
def uiRenderPassCreateInfo : RenderPassCreateInfo :=
  { name := uiRenderPassName,
    texture_inputs := [backbufferName],
    texture_outputs := [{ name := backbufferName, pixel_format := PixelFormatEnum.RGBA8,
                          clear := false }] }

/-- The `NovaRenderer` constructor steps the claims observe: builtin
textures (`create_builtin_textures`), builtin uniform buffers
(`create_uniform_buffers`) and the builtin UI renderpass
(`create_builtin_renderpasses`, which routes through `add_render_pass` and
then sets `is_builtin` on the shared pass object, i.e. also on the entry
already pushed into `renderpasses`). -/
def mkInitialState : NovaState :=
  let s1 : NovaState :=
    { builtin_images := [(sceneOutputName, 0)]
      builtin_buffers := [(perFrameDataName, 1), (modelMatrixBufferName, 2)]
      next_handle := 3 }
  match addRenderPass s1 uiRenderPassCreateInfo [] [] with
  | some (s2, _) =>
    let rps := s2.renderpasses.map (fun rp => { rp with is_builtin := true })
    match rps.getLast? with
    | some ui =>
      { s2 with
        renderpasses := rps
        builtin_renderpasses := [(uiRenderPassName, ui)] }
    | none => s2
  | none => s1

/-- `std::numeric_limits<uint64_t>::max()`, returned by
`add_renderable_for_material` for an unknown material pass name. -/
def badRenderableId : Nat := 18446744073709551615

/-- `StaticMeshRenderableData`: the renderable creation info fields the
embedded code reads. -/
structure StaticMeshRenderableData where
  mesh : Nat
  is_static : Bool := true
deriving DecidableEq, Repr

/-- The static-mesh batch loop of `add_renderable_for_material`:
`need_to_add_batch` starts `true`; the command joins the first batch with
the same vertex buffer, else a new batch is appended at the end. -/
def addToStaticBatches (vb ib : Nat) (cmd : StaticMeshRenderCommand) :
    List MeshBatch → List MeshBatch
  | [] => [{ vertex_buffer := vb, index_buffer := ib, commands := [cmd] }]
  | b :: rest =>
    if b.vertex_buffer = vb then { b with commands := b.commands ++ [cmd] } :: rest
    else b :: addToStaticBatches vb ib cmd rest

/-- The procedural-mesh batch loop of `add_renderable_for_material`: the
command joins the first batch with the same mesh key; with no matching
batch, nothing is added, because the code initialises `need_to_add_batch`
to `false` in this branch. -/
def addToProcBatches (meshKey : Nat) (cmd : StaticMeshRenderCommand) :
    List ProceduralMeshBatch → List ProceduralMeshBatch
  | [] => []
  | b :: rest =>
    if b.mesh_key = meshKey then { b with commands := b.commands ++ [cmd] } :: rest
    else b :: addToProcBatches meshKey cmd rest

/-- Replace the element at an index, when present. -/
def modifyAt {α : Type} (f : α → α) : List α → Nat → List α
  | [], _ => []
  | x :: rest, 0 => f x :: rest
  | x :: rest, n + 1 => x :: modifyAt f rest n

/-- Store an updated material pass back at its `MaterialPassKey` location. -/
def setMaterialPass (s : NovaState) (key : MaterialPassKey) (mp : MaterialPassRt) :
    NovaState :=
  let updPipeline := fun (pl : Pipeline) =>
    { pl with passes := modifyAt (fun _ => mp) pl.passes key.material_pass_index }
  let updPass := fun (rp : Renderpass) =>
    { rp with pipelines := modifyAt updPipeline rp.pipelines key.pipeline_index }
  { s with renderpasses := modifyAt updPass s.renderpasses key.renderpass_index }

/-- `NovaRenderer::add_renderable_for_material`: take the next renderable
id; an unknown material pass name logs and returns `uint64` max; otherwise
route via the `MaterialPassKey` (`.at` throws → `none`), build the render
command, and append it to the static batches (static-mesh table hit) or to
the procedural batches (procedural-mesh table hit) when `is_static`; an
unknown mesh id only logs.  Returns the new state and the returned id. -/
def addRenderableForMaterial (s : NovaState) (materialName : FullMaterialPassName)
    (renderable : StaticMeshRenderableData) : Option (NovaState × Nat) :=
  let id := s.next_renderable_id
  let s' := { s with next_renderable_id := s.next_renderable_id + 1 }
  match lookupL s'.material_pass_keys materialName with
  | none => some (s', badRenderableId)
  | some key =>
    match s'.renderpasses[key.renderpass_index]? with
    | none => none
    | some rp =>
      match rp.pipelines[key.pipeline_index]? with
      | none => none
      | some pl =>
        match pl.passes[key.material_pass_index]? with
        | none => none
        | some mat =>
          let cmd : StaticMeshRenderCommand := { id := id }
          match lookupL s'.meshes renderable.mesh with
          | some mesh =>
            if renderable.is_static then
              let draws := addToStaticBatches mesh.vertex_buffer mesh.index_buffer cmd
                mat.static_mesh_draws
              some (setMaterialPass s' key { mat with static_mesh_draws := draws }, id)
            else some (s', id)
          | none =>
            if s'.proc_meshes.contains renderable.mesh then
              if renderable.is_static then
                let draws := addToProcBatches renderable.mesh cmd
                  mat.static_procedural_mesh_draws
                some (setMaterialPass s' key
                  { mat with static_procedural_mesh_draws := draws }, id)
              else some (s', id)
            else some (s', id)

/-- The externally observable actions of one `execute_frame` iteration, in
program order. -/
inductive FrameEvent where
  | acquireImage (idx : Nat)
  | resetFence (idx : Nat)
  | createCommandList
  | uploadProcMesh (meshId : Nat) (frameIdx : Nat)
  | renderPass (rpId : Nat)
  | submitCommandList (fenceIdx : Nat)
  | waitForFence (idx : Nat)
  | present (idx : Nat)
deriving DecidableEq, Repr

/-- `NovaRenderer::execute_frame`: increment the frame counter, then in
order acquire the next swapchain image (its index is an input from the
swapchain), reset that slot's fence, create the command list, record every
procedural mesh's upload, invoke each renderpass's render callback with
the list and the freshly built `FrameContext`, submit signalling the
slot's fence, block on that fence, and present.  Returns the new state and
the emitted action trace. -/
def executeFrame (s : NovaState) (acquiredIdx : Nat) : NovaState × List FrameEvent :=
  ({ s with frame_count := s.frame_count + 1 },
    [FrameEvent.acquireImage acquiredIdx, FrameEvent.resetFence acquiredIdx,
      FrameEvent.createCommandList] ++
      s.proc_meshes.map (fun m => FrameEvent.uploadProcMesh m acquiredIdx) ++
      s.renderpasses.map (fun rp => FrameEvent.renderPass rp.id) ++
      [FrameEvent.submitCommandList acquiredIdx, FrameEvent.waitForFence acquiredIdx,
        FrameEvent.present acquiredIdx])

/-- Concrete fixture renderpack A: one pass `"a_pass"` writing one
512 by 512 dynamic texture `"a_tex"`. -/
def packA : ShaderpackData :=
  { passes := [{ name := "a_pass", texture_outputs := [{ name := "a_tex" }] }]
    textures := [{ name := "a_tex", size := (512, 512) }] }

/-- Concrete fixture renderpack B: one pass `"b_pass"` writing one
512 by 512 dynamic texture `"b_tex"`. -/
def packB : ShaderpackData :=
  { passes := [{ name := "b_pass", texture_outputs := [{ name := "b_tex" }] }]
    textures := [{ name := "b_tex", size := (512, 512) }] }

/-- Concrete fixture: a renderer with one registered material pass (key
all zero) with empty batch collections, and one procedural mesh, id 7. -/
def procMeshState : NovaState :=
  { renderpasses := [{ id := 0, pipelines := [{ pipeline := 0, passes := [{}] }] }]
    material_pass_keys := [(⟨"mat", "pass0"⟩, {})]
    proc_meshes := [7] }

/-- Concrete fixture: the same renderer but with a static mesh, id 3. -/
def staticMeshState : NovaState :=
  { renderpasses := [{ id := 0, pipelines := [{ pipeline := 0, passes := [{}] }] }]
    material_pass_keys := [(⟨"mat", "pass0"⟩, {})]
    meshes := [(3, { vertex_buffer := 100, index_buffer := 101 })] }

/-- Concrete fixture: dynamic textures where the first has pixel width 0
and the second is 512 by 512. -/
def zeroWidthState : NovaState :=
  createDynamicTextures {} [⟨"zero_tex", (0, 600)⟩, ⟨"big_tex", (512, 512)⟩]

/-- Concrete fixture: a pass writing `"zero_tex"` and `"big_tex"`, whose
pixel sizes differ. -/
def zeroWidthPass : RenderPassCreateInfo :=
  { name := "mismatch"
    texture_outputs := [{ name := "zero_tex" }, { name := "big_tex" }] }

/-- Concrete fixture: dynamic textures of 256 by 256 and 512 by 512. -/
def twoSizeState : NovaState :=
  createDynamicTextures {} [⟨"small_tex", (256, 256)⟩, ⟨"big_tex", (512, 512)⟩]

/-- Concrete fixture: a pass writing `"small_tex"` and `"big_tex"` —
mismatched sizes with a positive-width first output. -/
def twoSizePass : RenderPassCreateInfo :=
  { name := "mismatch2"
    texture_outputs := [{ name := "small_tex" }, { name := "big_tex" }] }

/-- Concrete fixture: a pass writing the backbuffer plus another texture. -/
def bbPlusPass : RenderPassCreateInfo :=
  { name := "bbplus"
    texture_outputs := [{ name := backbufferName }, { name := "big_tex" }] }

/-- Concrete fixture: a well-formed single-output pass. -/
def okPass : RenderPassCreateInfo :=
  { name := "ok_pass", texture_outputs := [{ name := "big_tex" }] }

/-- Helper for fixtures: a fragment-stage binding description. -/
def mkTestBinding (setIdx bindingIdx : Nat) (ty : DescriptorType) :
    ResourceBindingDescription :=
  { set := setIdx
    binding := bindingIdx
    type := ty
    count := 1
    stages := { fragment := true }
    is_unbounded := false }

/-- Concrete fixture: a pipeline interface with three bindings at set 0. -/
def bindDescs : BMap :=
  [("Globals", mkTestBinding 0 0 DescriptorType.uniformBuffer),
   ("SceneTex", mkTestBinding 0 1 DescriptorType.combinedImageSampler),
   ("Missing", mkTestBinding 0 2 DescriptorType.uniformBuffer)]

/-- Concrete fixture: material bindings — one resolves to a builtin
buffer, one to a dynamic texture, one to nothing. -/
def bindPairs : List (String × String) :=
  [("Globals", "PerFrameData"), ("SceneTex", "a_tex"), ("Missing", "nope")]

/-- Concrete fixture: one dynamic texture handle table. -/
def bindDyn : List (String × Nat) := [("a_tex", 10)]

/-- Concrete fixture: one builtin buffer handle table. -/
def bindBuiltin : List (String × Nat) := [("PerFrameData", 20)]

/-- Per-binding resolution of `bind_data_to_material_descriptor_sets`,
as one independent function: look up the binding description and the
descriptor set for its set index, then resolve the resource name first in
the dynamic textures, then in the builtin buffers; `none` when the name is
in neither (that binding's write is skipped). -/
def resolveBinding (dynTex builtinBufs : List (String × Nat)) (sets : List Nat)
    (descs : BMap) (pr : String × String) : Option DescriptorSetWrite :=
  match lookupBMap descs pr.1 with
  | none => none
  | some d =>
    match sets[d.set]? with
    | none => none
    | some sh =>
      match lookupL dynTex pr.2 with
      | some img => some ⟨sh, d.binding, DescriptorType.combinedImageSampler, img⟩
      | none =>
        match lookupL builtinBufs pr.2 with
        | some buf => some ⟨sh, d.binding, DescriptorType.uniformBuffer, buf⟩
        | none => none

/-- A binding pair whose resource name resolves in neither table. -/
def unresolvedPair (dynTex builtinBufs : List (String × Nat))
    (pr : String × String) : Bool :=
  (lookupL dynTex pr.2).isNone && (lookupL builtinBufs pr.2).isNone

/-- How one entry of the binding map can change while further resources of
stage `st` are merged: it is untouched, or its stage mask absorbed `st`. -/
def EntryEvolved (st : StageFlags) (e e' : ResourceBindingDescription) : Prop :=
  e' = e ∨ e' = { e with stages := orFlags e.stages st }

/-- `m'` is reachable from `m` by merging resources of stage `st`: every
entry of `m` is still present, evolved per `EntryEvolved`. -/
def Evolves (st : StageFlags) (m m' : BMap) : Prop :=
  ∀ n e, lookupBMap m n = some e →
    ∃ e', lookupBMap m' n = some e' ∧ EntryEvolved st e e'


/-! ## Theorems -/

theorem orFlags_self (a : StageFlags) : orFlags a a = a := by
  simp [orFlags]

theorem orFlags_absorb (a b : StageFlags) : orFlags (orFlags a b) b = orFlags a b := by
  simp [orFlags, Bool.or_assoc]

theorem updateBMap_self (m : BMap) (n : String) (v : ResourceBindingDescription)
    (h : lookupBMap m n = some v) : updateBMap m n v = m := by
  induction m with
  | nil => rfl
  | cons hd tl ih =>
    obtain ⟨k, w⟩ := hd
    by_cases hk : k = n
    · simp [lookupBMap, hk] at h
      simp [updateBMap, hk, h]
    · simp [lookupBMap, hk] at h
      simp [updateBMap, hk, ih h]

theorem lookupBMap_updateBMap_ne (m : BMap) (n n' : String)
    (v : ResourceBindingDescription) (h : n' ≠ n) :
    lookupBMap (updateBMap m n v) n' = lookupBMap m n' := by
  induction m with
  | nil => rfl
  | cons hd tl ih =>
    obtain ⟨k, w⟩ := hd
    simp only [updateBMap]
    by_cases hk : k = n
    · subst hk
      have hne : ¬ k = n' := fun hh => h hh.symm
      simp [lookupBMap, hne]
    · simp [hk, lookupBMap, ih]

theorem lookupBMap_updateBMap_eq (m : BMap) (n : String)
    (v w : ResourceBindingDescription) (h : lookupBMap m n = some w) :
    lookupBMap (updateBMap m n v) n = some v := by
  induction m with
  | nil => simp [lookupBMap] at h
  | cons hd tl ih =>
    obtain ⟨k, u⟩ := hd
    by_cases hk : k = n
    · simp [updateBMap, hk, lookupBMap]
    · simp [lookupBMap, hk] at h
      simp [updateBMap, hk, lookupBMap, ih h]

theorem lookupBMap_append_left (m m' : BMap) (n : String)
    {v : ResourceBindingDescription}
    (h : lookupBMap m n = some v) : lookupBMap (m ++ m') n = some v := by
  induction m with
  | nil => simp [lookupBMap] at h
  | cons hd tl ih =>
    obtain ⟨k, w⟩ := hd
    by_cases hk : k = n
    · simp_all [lookupBMap]
    · simp_all [lookupBMap]

/-- C3: merging a stage's binding whose name is already present either
reports a name-conflict configuration error, leaving the whole binding map
untouched (no silent merge), when the {set, binding, kind, count} tuple
differs; or, when the tuple is identical, logs nothing and only or-s the
new stage into the existing entry's stage mask, leaving every other entry
unchanged. -/
theorem addResource_conflict_or_merge (bindings : BMap) (stage : StageFlags)
    (res : SpirvResource) (ty : DescriptorType)
    (existing : ResourceBindingDescription)
    (hfound : lookupBMap bindings res.name = some existing) :
    (rbdSameResource existing (mkNewBinding stage res ty) = false →
      addResourceToBindings bindings stage res ty = (bindings, [conflictMsg res.name])) ∧
    (rbdSameResource existing (mkNewBinding stage res ty) = true →
      (addResourceToBindings bindings stage res ty).2 = [] ∧
      lookupBMap (addResourceToBindings bindings stage res ty).1 res.name =
        some { existing with stages := orFlags existing.stages stage } ∧
      ∀ n, n ≠ res.name →
        lookupBMap (addResourceToBindings bindings stage res ty).1 n =
          lookupBMap bindings n) := by
  constructor
  · intro hdiff
    simp [addResourceToBindings, hfound, hdiff]
  · intro hsame
    refine ⟨?_, ?_, ?_⟩
    · simp [addResourceToBindings, hfound, hsame]
    · simp only [addResourceToBindings, hfound, hsame, if_pos]
      exact lookupBMap_updateBMap_eq bindings res.name _ existing hfound
    · intro n hn
      simp only [addResourceToBindings, hfound, hsame, if_pos]
      exact lookupBMap_updateBMap_ne bindings res.name n _ hn

/-- Closed instantiation of `addResource_conflict_or_merge`: a fragment
stage redeclares `"tex"` at a different set than the vertex stage recorded,
and the map is returned unchanged together with the conflict error. -/
theorem addResource_conflict_or_merge_witness :
    lookupBMap texBMap texFragResource.name = some texVertexBinding ∧
    rbdSameResource texVertexBinding
      (mkNewBinding { fragment := true } texFragResource
        DescriptorType.combinedImageSampler) = false ∧
    addResourceToBindings texBMap { fragment := true } texFragResource
        DescriptorType.combinedImageSampler = (texBMap, [conflictMsg "tex"]) :=
  ⟨by decide, by decide,
    (addResource_conflict_or_merge texBMap { fragment := true } texFragResource
        DescriptorType.combinedImageSampler texVertexBinding (by decide)).1 (by decide)⟩

theorem rbdSameResource_refl (a : ResourceBindingDescription) :
    rbdSameResource a a = true := by
  simp [rbdSameResource]

theorem rbdSameResource_stages_left (e : ResourceBindingDescription) (s : StageFlags)
    (b : ResourceBindingDescription) :
    rbdSameResource { e with stages := s } b = rbdSameResource e b := rfl

theorem mkNewBinding_or_self (st : StageFlags) (r : SpirvResource) (ty : DescriptorType) :
    { mkNewBinding st r ty with
        stages := orFlags (mkNewBinding st r ty).stages st } = mkNewBinding st r ty := by
  simp [mkNewBinding, orFlags_self]

theorem lookupBMap_append_right (m l : BMap) (n : String)
    (h : lookupBMap m n = none) : lookupBMap (m ++ l) n = lookupBMap l n := by
  induction m with
  | nil => rfl
  | cons hd tl ih =>
    obtain ⟨k, w⟩ := hd
    by_cases hk : k = n
    · simp [lookupBMap, hk] at h
    · simp only [List.cons_append, lookupBMap, hk, if_false]
      simp only [lookupBMap, hk, if_false] at h
      exact ih h

theorem entryEvolved_trans (st : StageFlags) (e e' e'' : ResourceBindingDescription)
    (h1 : EntryEvolved st e e') (h2 : EntryEvolved st e' e'') : EntryEvolved st e e'' := by
  rcases h1 with h1 | h1
  · subst h1; exact h2
  · subst h1
    rcases h2 with h2 | h2
    · subst h2; exact Or.inr rfl
    · subst h2
      refine Or.inr ?_
      simp [orFlags_absorb]

theorem evolves_refl (st : StageFlags) (m : BMap) : Evolves st m m :=
  fun _ e h => ⟨e, h, Or.inl rfl⟩

theorem evolves_trans (st : StageFlags) (m1 m2 m3 : BMap)
    (h1 : Evolves st m1 m2) (h2 : Evolves st m2 m3) : Evolves st m1 m3 := by
  intro n e he
  obtain ⟨e', he', hev⟩ := h1 n e he
  obtain ⟨e'', he'', hev'⟩ := h2 n e' he'
  exact ⟨e'', he'', entryEvolved_trans st e e' e'' hev hev'⟩

theorem addResource_evolves (st : StageFlags) (m : BMap) (r : SpirvResource)
    (ty : DescriptorType) : Evolves st m (addResourceToBindings m st r ty).1 := by
  cases hl : lookupBMap m r.name with
  | none =>
    have hmap : (addResourceToBindings m st r ty).1 =
        m ++ [(r.name, mkNewBinding st r ty)] := by
      simp [addResourceToBindings, hl]
    intro n e he
    refine ⟨e, ?_, Or.inl rfl⟩
    rw [hmap]
    exact lookupBMap_append_left _ _ _ he
  | some existing =>
    cases hs : rbdSameResource existing (mkNewBinding st r ty) with
    | true =>
      have hmap : (addResourceToBindings m st r ty).1 =
          updateBMap m r.name { existing with stages := orFlags existing.stages st } := by
        simp [addResourceToBindings, hl, hs]
      intro n e he
      by_cases hn : n = r.name
      · subst hn
        have hee : e = existing := by
          rw [he] at hl
          exact Option.some.inj hl
        subst hee
        refine ⟨{ e with stages := orFlags e.stages st }, ?_, Or.inr rfl⟩
        rw [hmap]
        exact lookupBMap_updateBMap_eq m r.name _ e he
      · refine ⟨e, ?_, Or.inl rfl⟩
        rw [hmap]
        rw [lookupBMap_updateBMap_ne m r.name n _ hn]
        exact he
    | false =>
      have hmap : (addResourceToBindings m st r ty).1 = m := by
        simp [addResourceToBindings, hl, hs]
      intro n e he
      refine ⟨e, ?_, Or.inl rfl⟩
      rw [hmap]
      exact he

theorem addResources_evolves (st : StageFlags) (l : List (SpirvResource × DescriptorType)) :
    ∀ m : BMap, Evolves st m (addResources st m l).1 := by
  induction l with
  | nil => intro m; exact evolves_refl st m
  | cons hd tl ih =>
    intro m
    obtain ⟨r, ty⟩ := hd
    have h1 := addResource_evolves st m r ty
    have h2 := ih (addResourceToBindings m st r ty).1
    have hstep : (addResources st m ((r, ty) :: tl)).1 =
        (addResources st (addResourceToBindings m st r ty).1 tl).1 := rfl
    rw [hstep]
    exact evolves_trans st _ _ _ h1 h2

theorem addResource_stable (st : StageFlags) (m mf : BMap) (r : SpirvResource)
    (ty : DescriptorType)
    (hev : Evolves st (addResourceToBindings m st r ty).1 mf) :
    addResourceToBindings mf st r ty = (mf, (addResourceToBindings m st r ty).2) := by
  cases hl : lookupBMap m r.name with
  | none =>
    have h1 : (addResourceToBindings m st r ty).1 =
        m ++ [(r.name, mkNewBinding st r ty)] := by
      simp [addResourceToBindings, hl]
    have h2 : (addResourceToBindings m st r ty).2 = [] := by
      simp [addResourceToBindings, hl]
    have hlook1 : lookupBMap (addResourceToBindings m st r ty).1 r.name =
        some (mkNewBinding st r ty) := by
      rw [h1, lookupBMap_append_right m _ r.name hl]
      simp [lookupBMap]
    obtain ⟨e', he', hevo⟩ := hev r.name _ hlook1
    have he'' : e' = mkNewBinding st r ty := by
      rcases hevo with h | h
      · exact h
      · rw [h]
        simp [mkNewBinding, orFlags_self]
    rw [he''] at he'
    have hupd : updateBMap mf r.name (mkNewBinding st r ty) = mf :=
      updateBMap_self mf r.name _ he'
    rw [h2]
    simp [addResourceToBindings, he', rbdSameResource_refl, mkNewBinding_or_self, hupd]
  | some existing =>
    cases hs : rbdSameResource existing (mkNewBinding st r ty) with
    | true =>
      have h1 : (addResourceToBindings m st r ty).1 =
          updateBMap m r.name { existing with stages := orFlags existing.stages st } := by
        simp [addResourceToBindings, hl, hs]
      have h2 : (addResourceToBindings m st r ty).2 = [] := by
        simp [addResourceToBindings, hl, hs]
      have hlook1 : lookupBMap (addResourceToBindings m st r ty).1 r.name =
          some { existing with stages := orFlags existing.stages st } := by
        rw [h1]
        exact lookupBMap_updateBMap_eq m r.name _ existing hl
      obtain ⟨e', he', hevo⟩ := hev r.name _ hlook1
      have he'' : e' = { existing with stages := orFlags existing.stages st } := by
        rcases hevo with h | h
        · exact h
        · rw [h]
          simp [orFlags_absorb]
      rw [he''] at he'
      have hs' : rbdSameResource { existing with stages := orFlags existing.stages st }
          (mkNewBinding st r ty) = true := by
        rw [rbdSameResource_stages_left]
        exact hs
      have hupd : updateBMap mf r.name
          { existing with stages := orFlags existing.stages st } = mf :=
        updateBMap_self mf r.name _ he'
      rw [h2]
      simp [addResourceToBindings, he', hs', orFlags_absorb, hupd]
    | false =>
      have h1 : (addResourceToBindings m st r ty).1 = m := by
        simp [addResourceToBindings, hl, hs]
      have h2 : (addResourceToBindings m st r ty).2 = [conflictMsg r.name] := by
        simp [addResourceToBindings, hl, hs]
      have hlook1 : lookupBMap (addResourceToBindings m st r ty).1 r.name =
          some existing := by
        rw [h1]
        exact hl
      obtain ⟨e', he', hevo⟩ := hev r.name existing hlook1
      have hs' : rbdSameResource e' (mkNewBinding st r ty) = false := by
        rcases hevo with h | h
        · rw [h]
          exact hs
        · rw [h, rbdSameResource_stages_left]
          exact hs
      rw [h2]
      simp [addResourceToBindings, he', hs']

theorem addResources_idem (st : StageFlags) (l : List (SpirvResource × DescriptorType)) :
    ∀ m : BMap, addResources st (addResources st m l).1 l = addResources st m l := by
  induction l with
  | nil => intro m; rfl
  | cons hd tl ih =>
    intro m
    obtain ⟨r, ty⟩ := hd
    have hev := addResources_evolves st tl (addResourceToBindings m st r ty).1
    have hfirst := addResource_stable st m
      ((addResources st (addResourceToBindings m st r ty).1 tl).1) r ty hev
    have hih := ih (addResourceToBindings m st r ty).1
    show addResources st
        (addResources st (addResourceToBindings m st r ty).1 tl).1 ((r, ty) :: tl) =
      ((addResources st (addResourceToBindings m st r ty).1 tl).1,
        (addResourceToBindings m st r ty).2 ++
          (addResources st (addResourceToBindings m st r ty).1 tl).2)
    simp only [addResources, hfirst, hih]

/-- C8: merging the reflected bindings of one shader stage a second time
into the binding map it itself produced changes nothing: the binding map is
identical and the second merge logs exactly the error messages of the
first, so a clean first merge stays clean — the duplicate stage raises no
name-conflict configuration error (same tuple, stage mask or is a no-op). -/
theorem gsmd_idempotent (spirv : ShaderModule) (stage : StageFlags) (bindings : BMap) :
    getShaderModuleDescriptors spirv stage
        (getShaderModuleDescriptors spirv stage bindings).1 =
      getShaderModuleDescriptors spirv stage bindings :=
  addResources_idem stage (moduleResources spirv) bindings

theorem extractFirst_pred {α : Type} (pred : α → Bool) (l : List α) (x : α)
    (rest : List α) (h : extractFirst pred l = some (x, rest)) : pred x = true := by
  induction l generalizing rest with
  | nil => simp [extractFirst] at h
  | cons a as ih =>
    by_cases ha : pred a
    · simp [extractFirst, ha] at h
      rw [← h.1]
      exact ha
    · simp only [extractFirst, ha, if_false] at h
      cases hrec : extractFirst pred as with
      | none => rw [hrec] at h; simp at h
      | some yr =>
        obtain ⟨y, rest'⟩ := yr
        rw [hrec] at h
        simp at h
        obtain ⟨h1, h2⟩ := h
        subst h1
        exact ih rest' hrec

theorem extractFirst_perm {α : Type} (pred : α → Bool) (l : List α) (x : α)
    (rest : List α) (h : extractFirst pred l = some (x, rest)) :
    List.Perm l (x :: rest) := by
  induction l generalizing rest with
  | nil => simp [extractFirst] at h
  | cons a as ih =>
    by_cases ha : pred a
    · simp [extractFirst, ha] at h
      rw [h.1, h.2]
    · simp only [extractFirst, ha, if_false] at h
      cases hrec : extractFirst pred as with
      | none => rw [hrec] at h; simp at h
      | some yr =>
        obtain ⟨y, rest'⟩ := yr
        rw [hrec] at h
        simp at h
        obtain ⟨h1, h2⟩ := h
        subst h1
        subst h2
        have hperm := ih rest' hrec
        exact (hperm.cons a).trans (List.Perm.swap _ a rest')

theorem orderPassesAux_perm (all : List RenderPassCreateInfo) (fuel : Nat) :
    ∀ remaining done ord,
      orderPassesAux all fuel remaining done = some ord →
      List.Perm ord (done.reverse ++ remaining) := by
  induction fuel with
  | zero =>
    intro remaining done ord h
    cases remaining with
    | nil =>
      simp [orderPassesAux] at h
      subst h
      simp
    | cons r rs => simp [orderPassesAux] at h
  | succ fuel ih =>
    intro remaining done ord h
    cases remaining with
    | nil =>
      simp [orderPassesAux] at h
      subst h
      simp
    | cons r rs =>
      simp only [orderPassesAux] at h
      cases hex : extractFirst (passReady all (done.map (fun p => p.name))) (r :: rs) with
      | none => rw [hex] at h; simp at h
      | some pr =>
        obtain ⟨p, rest⟩ := pr
        rw [hex] at h
        simp only at h
        have hperm1 := ih rest (p :: done) ord h
        have hperm2 := extractFirst_perm _ _ _ _ hex
        have hstep : (p :: done).reverse ++ rest = done.reverse ++ (p :: rest) := by
          simp
        rw [hstep] at hperm1
        exact hperm1.trans ((hperm2.symm).append_left done.reverse)

theorem orderPassesAux_sound (all : List RenderPassCreateInfo) (fuel : Nat) :
    ∀ remaining done ord,
      orderPassesAux all fuel remaining done = some ord →
      ∃ suffix, ord = done.reverse ++ suffix ∧
        soundFrom all (done.map (fun p => p.name)) suffix := by
  induction fuel with
  | zero =>
    intro remaining done ord h
    cases remaining with
    | nil =>
      simp [orderPassesAux] at h
      subst h
      exact ⟨[], by simp, trivial⟩
    | cons r rs => simp [orderPassesAux] at h
  | succ fuel ih =>
    intro remaining done ord h
    cases remaining with
    | nil =>
      simp [orderPassesAux] at h
      subst h
      exact ⟨[], by simp, trivial⟩
    | cons r rs =>
      simp only [orderPassesAux] at h
      cases hex : extractFirst (passReady all (done.map (fun p => p.name))) (r :: rs) with
      | none => rw [hex] at h; simp at h
      | some pr =>
        obtain ⟨p, rest⟩ := pr
        rw [hex] at h
        simp only at h
        obtain ⟨suffix, hdec, hsound⟩ := ih rest (p :: done) ord h
        refine ⟨p :: suffix, ?_, ?_⟩
        · rw [hdec]
          simp
        · exact ⟨extractFirst_pred _ _ _ _ hex, hsound⟩

theorem soundFrom_decomp (all : List RenderPassCreateInfo)
    (l1 : List RenderPassCreateInfo) :
    ∀ (ns : List String) (p : RenderPassCreateInfo) (l2 : List RenderPassCreateInfo),
      soundFrom all ns (l1 ++ p :: l2) →
      passReady all (l1.reverse.map (fun q => q.name) ++ ns) p = true := by
  induction l1 with
  | nil =>
    intro ns p l2 h
    simpa using h.1
  | cons x xs ih =>
    intro ns p l2 h
    have h2 : soundFrom all (x.name :: ns) (xs ++ p :: l2) := h.2
    have := ih (x.name :: ns) p l2 h2
    have hlist : (x :: xs).reverse.map (fun q => q.name) ++ ns =
        xs.reverse.map (fun q => q.name) ++ (x.name :: ns) := by
      simp
    rw [hlist]
    exact this

theorem passReady_iff (all : List RenderPassCreateInfo) (ns : List String)
    (p : RenderPassCreateInfo) :
    passReady all ns p = true ↔
      ∀ t ∈ p.texture_inputs, ∀ q ∈ all, t ∈ passOutputs q → q.name ∈ ns := by
  simp only [passReady, List.all_eq_true, decide_eq_true_eq]

theorem nodup_map_inj {α β : Type} (f : α → β) (l : List α)
    (h : (l.map f).Nodup) (a b : α) (ha : a ∈ l) (hb : b ∈ l) (hf : f a = f b) :
    a = b := by
  induction l with
  | nil => simp at ha
  | cons x xs ih =>
    simp only [List.map_cons, List.nodup_cons] at h
    rcases List.mem_cons.mp ha with ha1 | ha1 <;>
      rcases List.mem_cons.mp hb with hb1 | hb1
    · rw [ha1, hb1]
    · exfalso
      apply h.1
      rw [ha1] at hf
      rw [hf]
      exact List.mem_map_of_mem f hb1
    · exfalso
      apply h.1
      rw [hb1] at hf
      rw [← hf]
      exact List.mem_map_of_mem f ha1
    · exact ih h.2 ha1 hb1

theorem orderPasses_producer_before (passes : List RenderPassCreateInfo)
    (hnd : (passes.map (fun p => p.name)).Nodup)
    (ord : List RenderPassCreateInfo) (h : orderPasses passes = some ord) :
    ∀ l1 p l2, ord = l1 ++ p :: l2 →
      ∀ t ∈ p.texture_inputs, ∀ q ∈ passes, t ∈ passOutputs q → q ∈ l1 := by
  intro l1 p l2 hdec t ht q hq hout
  obtain ⟨suffix, hsfx, hsound⟩ := orderPassesAux_sound passes passes.length passes [] ord h
  simp at hsfx
  subst hsfx
  have hsound2 : soundFrom passes [] (l1 ++ p :: l2) := by
    rw [← hdec]
    simpa using hsound
  have hready := soundFrom_decomp passes l1 [] p l2 hsound2
  rw [passReady_iff] at hready
  have hname : q.name ∈ l1.reverse.map (fun q => q.name) ++ ([] : List String) :=
    hready t ht q hq hout
  simp at hname
  obtain ⟨q', hq'1, hq'2⟩ := hname
  have hperm := orderPassesAux_perm passes passes.length passes [] ord h
  simp at hperm
  have hordnd : (ord.map (fun p => p.name)).Nodup :=
    ((hperm.map (fun p => p.name)).nodup_iff).mpr hnd
  have hqord : q ∈ ord := hperm.mem_iff.mpr hq
  have hq'ord : q' ∈ ord := by
    rw [hdec]
    exact List.mem_append_left _ hq'1
  have : q' = q := nodup_map_inj _ ord hordnd q' q hq'ord hqord hq'2
  rw [← this]
  exact hq'1

theorem mem_split_first {α : Type} [DecidableEq α] (p : α) (l : List α)
    (h : p ∈ l) : ∃ l1 l2, l = l1 ++ p :: l2 ∧ p ∉ l1 := by
  induction l with
  | nil => simp at h
  | cons x xs ih =>
    by_cases hx : x = p
    · exact ⟨[], xs, by rw [hx]; simp, by simp⟩
    · have hmem : p ∈ xs := by
        rcases List.mem_cons.mp h with h1 | h1
        · exact absurd h1.symm hx
        · exact h1
      obtain ⟨l1, l2, hdec, hnp⟩ := ih hmem
      refine ⟨x :: l1, l2, by rw [hdec]; rfl, ?_⟩
      simp only [List.mem_cons]
      rintro (h1 | h1)
      · exact hx h1.symm
      · exact hnp h1

theorem posIn_of_split {α : Type} [DecidableEq α] (l1 : List α) (p : α) (l2 : List α)
    (hnp : p ∉ l1) : posIn (l1 ++ p :: l2) p = l1.length := by
  induction l1 with
  | nil => simp [posIn]
  | cons x xs ih =>
    have hx : ¬ x = p := fun hh => hnp (by rw [hh]; exact List.mem_cons_self _ _)
    have hxs : p ∉ xs := fun hh => hnp (List.mem_cons_of_mem _ hh)
    simp only [List.cons_append, posIn, hx, if_false, List.length_cons]
    exact congrArg (fun n => n + 1) (ih hxs)

theorem posIn_lt_of_mem_left {α : Type} [DecidableEq α] (l1 rest : List α) (a : α)
    (ha : a ∈ l1) : posIn (l1 ++ rest) a < l1.length := by
  induction l1 with
  | nil => simp at ha
  | cons x xs ih =>
    by_cases hx : x = a
    · simp [posIn, hx]
    · have hmem : a ∈ xs := by
        rcases List.mem_cons.mp ha with h1 | h1
        · exact absurd h1.symm hx
        · exact h1
      simp only [List.cons_append, posIn, hx, if_false, List.length_cons]
      exact Nat.succ_lt_succ (ih hmem)

theorem dependsOn_pos_lt (passes : List RenderPassCreateInfo)
    (hnd : (passes.map (fun p => p.name)).Nodup)
    (ord : List RenderPassCreateInfo) (h : orderPasses passes = some ord)
    (p q : RenderPassCreateInfo) (hp : p ∈ passes) (hq : q ∈ passes)
    (hdep : dependsOn p q) : posIn ord q < posIn ord p := by
  have hperm := orderPassesAux_perm passes passes.length passes [] ord h
  simp at hperm
  have hpord : p ∈ ord := hperm.mem_iff.mpr hp
  obtain ⟨l1, l2, hdec, hnp⟩ := mem_split_first p ord hpord
  obtain ⟨t, ht, hout⟩ := hdep
  have hql1 : q ∈ l1 :=
    orderPasses_producer_before passes hnd ord h l1 p l2 hdec t ht q hq hout
  rw [hdec]
  calc posIn (l1 ++ p :: l2) q < l1.length := posIn_lt_of_mem_left l1 _ q hql1
    _ = posIn (l1 ++ p :: l2) p := (posIn_of_split l1 p l2 hnp).symm

theorem chain_pos_descent (passes ord : List RenderPassCreateInfo)
    (key : ∀ a b, a ∈ passes → b ∈ passes → dependsOn a b →
      posIn ord b < posIn ord a) :
    ∀ (c : List RenderPassCreateInfo) (x last : RenderPassCreateInfo),
      x ∈ passes → (∀ q ∈ c, q ∈ passes) → last ∈ passes →
      List.Chain dependsOn x (c ++ [last]) → posIn ord last < posIn ord x := by
  intro c
  induction c with
  | nil =>
    intro x last hx _ hlast hchain
    rw [List.nil_append] at hchain
    exact key x last hx hlast (List.chain_cons.mp hchain).1
  | cons y ys ih =>
    intro x last hx hc hlast hchain
    rw [List.cons_append] at hchain
    obtain ⟨hxy, hrest⟩ := List.chain_cons.mp hchain
    have hy : y ∈ passes := hc y (List.mem_cons_self _ _)
    have h1 := key x y hx hy hxy
    have h2 := ih y last hy (fun q hqm => hc q (List.mem_cons_of_mem _ hqm)) hlast hrest
    exact h2.trans h1

theorem extractFirst_none {α : Type} (pred : α → Bool) :
    ∀ l : List α, extractFirst pred l = none → ∀ x ∈ l, pred x = false := by
  intro l
  induction l with
  | nil => intro _ x hx; simp at hx
  | cons a as ih =>
    intro h x hx
    by_cases ha : pred a
    · simp [extractFirst, ha] at h
    · simp only [extractFirst, ha, if_false] at h
      rcases List.mem_cons.mp hx with hx1 | hx1
      · subst hx1
        simpa using ha
      · cases hrec : extractFirst pred as with
        | some yr =>
          obtain ⟨y, r⟩ := yr
          rw [hrec] at h
          simp at h
        | none => exact ih hrec x hx1

theorem posIn_lt_length {α : Type} [DecidableEq α] :
    ∀ (l : List α) (a : α), a ∈ l → posIn l a < l.length := by
  intro l
  induction l with
  | nil => intro a ha; simp at ha
  | cons x xs ih =>
    intro a ha
    by_cases hx : x = a
    · simp [posIn, hx]
    · have hmem : a ∈ xs := by
        rcases List.mem_cons.mp ha with h1 | h1
        · exact absurd h1.symm hx
        · exact h1
      simp only [posIn, hx, if_false, List.length_cons]
      exact Nat.succ_lt_succ (ih a hmem)

theorem posIn_inj {α : Type} [DecidableEq α] :
    ∀ (l : List α) (a b : α), a ∈ l → b ∈ l → posIn l a = posIn l b → a = b := by
  intro l
  induction l with
  | nil => intro a b ha _ _; simp at ha
  | cons x xs ih =>
    intro a b ha hb h
    by_cases hxa : x = a <;> by_cases hxb : x = b
    · exact hxa.symm.trans hxb
    · by_cases hab : a = b
      · exact hab
      · simp [posIn, hxa, hxb] at h
        rw [if_neg hab] at h
        exact absurd h.symm (Nat.succ_ne_zero _)
    · simp [posIn, hxa, hxb] at h
      exact h.symm
    · have hma : a ∈ xs := by
        rcases List.mem_cons.mp ha with h1 | h1
        · exact absurd h1.symm hxa
        · exact h1
      have hmb : b ∈ xs := by
        rcases List.mem_cons.mp hb with h1 | h1
        · exact absurd h1.symm hxb
        · exact h1
      simp only [posIn, hxa, hxb, if_false] at h
      exact ih a b hma hmb (Nat.add_right_cancel h)

theorem orderPassesAux_none_stuck (passes : List RenderPassCreateInfo) :
    ∀ (fuel : Nat) (remaining done : List RenderPassCreateInfo),
      remaining.length = fuel →
      List.Perm passes (done.reverse ++ remaining) →
      orderPassesAux passes fuel remaining done = none →
      ∃ (stuck : List RenderPassCreateInfo) (dnames : List String),
        stuck ≠ [] ∧
        (∀ p ∈ stuck, p ∈ passes) ∧
        (∀ p ∈ stuck, passReady passes dnames p = false) ∧
        (∀ q ∈ passes, q.name ∉ dnames → q ∈ stuck) := by
  intro fuel
  induction fuel with
  | zero =>
    intro remaining done hlen _ h
    cases remaining with
    | nil => simp [orderPassesAux] at h
    | cons r rs => simp at hlen
  | succ fuel ih =>
    intro remaining done hlen hperm h
    cases remaining with
    | nil => simp [orderPassesAux] at h
    | cons r rs =>
      simp only [orderPassesAux] at h
      cases hex : extractFirst (passReady passes (done.map (fun p => p.name))) (r :: rs) with
      | some pr =>
        obtain ⟨p, rest⟩ := pr
        rw [hex] at h
        simp only at h
        have hperm2 := extractFirst_perm _ _ _ _ hex
        have hlen2 : rest.length = fuel := by
          have hl := hperm2.length_eq
          simp only [List.length_cons] at hl hlen
          omega
        have hstep : (p :: done).reverse ++ rest = done.reverse ++ (p :: rest) := by
          simp
        have hperm3 : List.Perm passes ((p :: done).reverse ++ rest) := by
          rw [hstep]
          exact hperm.trans (hperm2.append_left done.reverse)
        exact ih rest (p :: done) hlen2 hperm3 h
      | none =>
        refine ⟨r :: rs, done.map (fun p => p.name), by simp, ?_, ?_, ?_⟩
        · intro p hp
          exact hperm.mem_iff.mpr (List.mem_append_right _ hp)
        · exact fun p hp => extractFirst_none _ _ hex p hp
        · intro q hq hname
          have hq2 : q ∈ done.reverse ++ (r :: rs) := hperm.mem_iff.mp hq
          rcases List.mem_append.mp hq2 with h1 | h1
          · exact absurd (List.mem_map_of_mem _ (List.mem_reverse.mp h1)) hname
          · exact h1

theorem chain_of_path (g : Nat → RenderPassCreateInfo)
    (hstep : ∀ n, dependsOn (g n) (g (n + 1))) :
    ∀ (n a : Nat),
      List.Chain dependsOn (g a) (((List.range' (a + 1) n).map g) ++ [g (a + n + 1)]) := by
  intro n
  induction n with
  | zero =>
    intro a
    exact List.Chain.cons (hstep a) List.Chain.nil
  | succ n ih =>
    intro a
    rw [List.range'_succ]
    simp only [List.map_cons, List.cons_append]
    refine List.Chain.cons (hstep a) ?_
    have harith : a + 1 + n + 1 = a + (n + 1) + 1 := by omega
    have h2 := ih (a + 1)
    rw [harith] at h2
    exact h2

theorem cycle_of_path_repeat (passes R : List RenderPassCreateInfo)
    (hsub : ∀ p ∈ R, p ∈ passes) (g : Nat → RenderPassCreateInfo)
    (hgR : ∀ n, g n ∈ R)
    (hstep : ∀ n, dependsOn (g n) (g (n + 1)))
    (i j : Nat) (hij : i < j) (heq : g i = g j) : CyclicDeps passes := by
  have hj : j = i + (j - i - 1) + 1 := by omega
  have hchain := chain_of_path g hstep (j - i - 1) i
  rw [← hj, ← heq] at hchain
  refine ⟨g i, (List.range' (i + 1) (j - i - 1)).map g, hsub _ (hgR i), ?_, hchain⟩
  intro q hq
  obtain ⟨k, _, hk⟩ := List.mem_map.mp hq
  rw [← hk]
  exact hsub _ (hgR k)

theorem cycle_of_succ (passes R : List RenderPassCreateInfo) (hne : R ≠ [])
    (hsub : ∀ p ∈ R, p ∈ passes)
    (hsucc : ∀ p ∈ R, ∃ q, q ∈ R ∧ dependsOn p q) :
    CyclicDeps passes := by
  obtain ⟨p0, hp0⟩ : ∃ p, p ∈ R := by
    cases R with
    | nil => exact absurd rfl hne
    | cons x xs => exact ⟨x, List.mem_cons_self _ _⟩
  have hT : ∀ x : {y // y ∈ R}, ∃ z : {y // y ∈ R}, dependsOn x.val z.val := by
    rintro ⟨p, hp⟩
    obtain ⟨q, hq, hd⟩ := hsucc p hp
    exact ⟨⟨q, hq⟩, hd⟩
  choose F hF using hT
  have hstep : ∀ n, dependsOn (F^[n] ⟨p0, hp0⟩).val (F^[n + 1] ⟨p0, hp0⟩).val := by
    intro n
    rw [Function.iterate_succ_apply']
    exact hF _
  have hmaps : ∀ n ∈ Finset.range (R.length + 1),
      posIn R (F^[n] ⟨p0, hp0⟩).val ∈ Finset.range R.length := by
    intro n _
    exact Finset.mem_range.mpr (posIn_lt_length R _ (F^[n] ⟨p0, hp0⟩).property)
  have hcard : (Finset.range R.length).card < (Finset.range (R.length + 1)).card := by
    simp only [Finset.card_range]
    omega
  obtain ⟨i, _, j, _, hij, hfeq⟩ :=
    Finset.exists_ne_map_eq_of_card_lt_of_maps_to hcard hmaps
  have heq : (F^[i] ⟨p0, hp0⟩).val = (F^[j] ⟨p0, hp0⟩).val :=
    posIn_inj R _ _ (F^[i] ⟨p0, hp0⟩).property (F^[j] ⟨p0, hp0⟩).property hfeq
  rcases Nat.lt_or_ge i j with hlt | hge
  · exact cycle_of_path_repeat passes R hsub (fun n => (F^[n] ⟨p0, hp0⟩).val)
      (fun n => (F^[n] ⟨p0, hp0⟩).property) hstep i j hlt heq
  · have hlt2 : j < i := by omega
    exact cycle_of_path_repeat passes R hsub (fun n => (F^[n] ⟨p0, hp0⟩).val)
      (fun n => (F^[n] ⟨p0, hp0⟩).property) hstep j i hlt2 heq.symm

theorem orderPasses_some_of_acyclic (passes : List RenderPassCreateInfo)
    (hnc : ¬ CyclicDeps passes) :
    ∃ ord, orderPasses passes = some ord := by
  cases hord : orderPasses passes with
  | some ord => exact ⟨ord, rfl⟩
  | none =>
    exfalso
    obtain ⟨stuck, dnames, hne, hsub, hnotready, hcover⟩ :=
      orderPassesAux_none_stuck passes passes.length passes [] rfl (by simp) hord
    apply hnc
    refine cycle_of_succ passes stuck hne hsub ?_
    intro p hp
    have hready := hnotready p hp
    have hnr : ¬ (∀ t ∈ p.texture_inputs, ∀ q ∈ passes,
        t ∈ passOutputs q → q.name ∈ dnames) := by
      intro hcontra
      rw [← passReady_iff] at hcontra
      rw [hready] at hcontra
      exact Bool.false_ne_true hcontra
    push_neg at hnr
    obtain ⟨t, ht, q, hq, hout, hqname⟩ := hnr
    exact ⟨q, hcover q hq hqname, ⟨t, ht, hout⟩⟩

/-- C4: with distinct pass names, the spec-modelled
`order_passes` (a) rejects every descriptor set whose input/output naming
relation contains a dependency cycle with a configuration error (`none` —
it is a pure function, hence the error is deterministic), (b) whenever
it returns an order, every texture name consumed by a pass and produced by
some pass of the set is produced by a pass strictly earlier in the
returned sequence, and (c) on every acyclic descriptor set it does return
such an order rather than an error. -/
theorem orderPasses_cycle_error_and_topological (passes : List RenderPassCreateInfo)
    (hnd : (passes.map (fun p => p.name)).Nodup) :
    (CyclicDeps passes → orderPasses passes = none) ∧
    (∀ ord, orderPasses passes = some ord →
      ∀ l1 p l2, ord = l1 ++ p :: l2 →
        ∀ t ∈ p.texture_inputs, ∀ q ∈ passes, t ∈ passOutputs q → q ∈ l1) ∧
    (¬ CyclicDeps passes → ∃ ord, orderPasses passes = some ord) := by
  refine ⟨?_, ?_, ?_⟩
  · intro hcyc
    cases hord : orderPasses passes with
    | none => rfl
    | some ord =>
      exfalso
      obtain ⟨p, c, hp, hc, hchain⟩ := hcyc
      have key := fun a b ha hb hdep =>
        dependsOn_pos_lt passes hnd ord hord a b ha hb hdep
      have := chain_pos_descent passes ord key c p p hp hc hp hchain
      exact Nat.lt_irrefl _ this
  · intro ord hord
    exact orderPasses_producer_before passes hnd ord hord
  · exact orderPasses_some_of_acyclic passes

/-- Closed instantiation of `orderPasses_cycle_error_and_topological`:
two passes that read each other's outputs form a cycle and ordering them
reports the configuration error, while the acyclic producer/consumer pair
`depPassA`/`depPassB` (linked by `"depthBuffer"`) is ordered
successfully. -/
theorem orderPasses_cycle_error_witness :
    ([cycPassA, cycPassB].map (fun p => p.name)).Nodup ∧
    orderPasses [cycPassA, cycPassB] = none ∧
    ([depPassA, depPassB].map (fun p => p.name)).Nodup ∧
    ∃ ord, orderPasses [depPassA, depPassB] = some ord := by
  have hnd : ([cycPassA, cycPassB].map (fun p => p.name)).Nodup := by
    decide
  have hcyc : CyclicDeps [cycPassA, cycPassB] := by
    refine ⟨cycPassA, [cycPassB], by decide, by decide, ?_⟩
    refine List.Chain.cons ⟨"t2", by decide, by decide⟩ ?_
    exact List.Chain.cons ⟨"t1", by decide, by decide⟩ List.Chain.nil
  have hnd2 : ([depPassA, depPassB].map (fun p => p.name)).Nodup := by
    decide
  have hnc : ¬ CyclicDeps [depPassA, depPassB] := by
    intro hcyc2
    have hn := (orderPasses_cycle_error_and_topological [depPassA, depPassB] hnd2).1 hcyc2
    exact absurd hn (by decide)
  exact ⟨hnd, (orderPasses_cycle_error_and_topological [cycPassA, cycPassB] hnd).1 hcyc,
    hnd2, (orderPasses_cycle_error_and_topological [depPassA, depPassB] hnd2).2.2 hnc⟩

/-- C7: one `execute_frame` iteration increments the frame counter and
performs, in program order: acquire the swapchain image, reset that
slot's fence, create the command list, record every procedural mesh's
upload, invoke every renderpass's render callback, submit signalling the
slot's fence, block on that fence, and present — and `present` does not
occur anywhere before the fence wait (it is only the final event). -/
theorem executeFrame_order (s : NovaState) (idx : Nat) :
    (executeFrame s idx).1.frame_count = s.frame_count + 1 ∧
    (executeFrame s idx).2 =
      [FrameEvent.acquireImage idx, FrameEvent.resetFence idx,
        FrameEvent.createCommandList] ++
        s.proc_meshes.map (fun m => FrameEvent.uploadProcMesh m idx) ++
        s.renderpasses.map (fun rp => FrameEvent.renderPass rp.id) ++
        [FrameEvent.submitCommandList idx, FrameEvent.waitForFence idx,
          FrameEvent.present idx] ∧
    FrameEvent.present idx ∉
      ([FrameEvent.acquireImage idx, FrameEvent.resetFence idx,
        FrameEvent.createCommandList] ++
        s.proc_meshes.map (fun m => FrameEvent.uploadProcMesh m idx) ++
        s.renderpasses.map (fun rp => FrameEvent.renderPass rp.id) ++
        [FrameEvent.submitCommandList idx, FrameEvent.waitForFence idx]) := by
  refine ⟨rfl, rfl, ?_⟩
  simp [List.mem_append, List.mem_map]

/-- C1 (code bug evidence): loading renderpack A, then B, then A again
does not restore the state of the first load of A.
`destroy_renderpasses` never clears the `renderpasses` vector (nor
`renderpass_metadatas` / `material_pass_keys`), and
`destroy_dynamic_resources` never clears `dynamic_texture_infos`, so every
previous load's passes stay in the list and B's texture info survives:
after the first load of A there are 2 renderpasses (builtin UI plus A's)
and 1 dynamic-texture info; after A, B, A there are 4 and 2. -/
theorem loadShaderpack_roundtrip_accumulates :
    (loadShaderpack mkInitialState packA).map
        (fun s => (s.renderpasses.length, s.dynamic_texture_infos.length)) =
      some (2, 1) ∧
    (((loadShaderpack mkInitialState packA).bind
          (fun s1 => loadShaderpack s1 packB)).bind
        (fun s2 => loadShaderpack s2 packA)).map
        (fun s => (s.renderpasses.length, s.dynamic_texture_infos.length)) =
      some (4, 2) :=
  ⟨by decide, by decide⟩

/-- C2 (code bug evidence): with a known material pass name and a mesh id
present in the procedural-mesh table, `is_static` set, and no existing
batch for that mesh, `add_renderable_for_material` silently drops the draw
command — the procedural branch initialises `need_to_add_batch` to
`false`, so the no-match case never creates a batch (the procedural batch
list stays empty).  The static-mesh branch, evaluated for contrast,
creates the new batch holding the command as the claim describes. -/
theorem addRenderable_drops_new_procedural_batch :
    (addRenderableForMaterial procMeshState ⟨"mat", "pass0"⟩ { mesh := 7 }).map
        (fun r => (r.1.renderpasses.map (fun rp => rp.pipelines.map (fun pl =>
          pl.passes.map (fun m => m.static_procedural_mesh_draws.length))), r.2)) =
      some ([[[0]]], 0) ∧
    (addRenderableForMaterial staticMeshState ⟨"mat", "pass0"⟩ { mesh := 3 }).map
        (fun r => r.1.renderpasses.map (fun rp => rp.pipelines.map (fun pl =>
          pl.passes.map (fun m => m.static_mesh_draws)))) =
      some [[[[{ vertex_buffer := 100, index_buffer := 101,
                 commands := [{ id := 0 }] }]]]] :=
  ⟨by decide, by decide⟩

/-- C5 counterexample: the two texture outputs of `zeroWidthPass` have
differing pixel sizes (0 by 600 versus 512 by 512), yet `add_render_pass`
reports no error and registers the pass — the size comparison only engages
once `framebuffer_size.x > 0`, so a zero-width first attachment never
establishes the baseline. -/
theorem addRenderPass_size_mismatch_missed_cx :
    (lookupL zeroWidthState.dynamic_texture_infos "zero_tex").map (fun i => i.size) =
      some (0, 600) ∧
    (lookupL zeroWidthState.dynamic_texture_infos "big_tex").map (fun i => i.size) =
      some (512, 512) ∧
    ((0, 600) : Nat × Nat) ≠ (512, 512) ∧
    (addRenderPass zeroWidthState zeroWidthPass [] []).map
        (fun r => (r.2, r.1.renderpasses.length, r.1.renderpass_metadatas.length)) =
      some ([], 1, 1) :=
  ⟨by decide, by decide, by decide, by decide⟩

/-- C9 counterexample: after renderer construction the builtin UI pass
already occupies id 0 and one `renderpass_metadatas` entry, so the first
(and only) pass registered while loading renderpack A receives id 1, not
id 0 as the claim's `k−1` numbering requires. -/
theorem renderpass_id_not_zero_based_cx :
    (loadShaderpack mkInitialState packA).map
        (fun s => (s.renderpasses.drop 1).map (fun rp => rp.id)) = some [1] ∧
    ¬ (loadShaderpack mkInitialState packA).map
        (fun s => (s.renderpasses.drop 1).map (fun rp => rp.id)) = some [0] :=
  ⟨by decide, by decide⟩


theorem lookupL_append_none {κ ν : Type} [DecidableEq κ] (l l2 : List (κ × ν)) (k : κ)
    (h1 : lookupL l k = none) (h2 : lookupL l2 k = none) : lookupL (l ++ l2) k = none := by
  induction l with
  | nil => simpa using h2
  | cons hd tl ih =>
    obtain ⟨a, b⟩ := hd
    by_cases ha : a = k
    · simp [lookupL, ha] at h1
    · simp only [lookupL, ha, if_false] at h1
      simp only [List.cons_append, lookupL, ha, if_false]
      exact ih h1

theorem emplaceL_of_lookup_none {κ ν : Type} [DecidableEq κ] (l : List (κ × ν))
    (k : κ) (v : ν) (h : lookupL l k = none) : emplaceL l k v = l ++ [(k, v)] := by
  simp [emplaceL, h]

theorem emplaceL_extends {κ ν : Type} [DecidableEq κ] (l : List (κ × ν)) (k : κ) (v : ν) :
    ∃ t, emplaceL l k v = l ++ t := by
  unfold emplaceL
  cases lookupL l k with
  | some w => exact ⟨[], by simp⟩
  | none => exact ⟨[(k, v)], rfl⟩

theorem list_isEmpty_true_iff {α : Type} (l : List α) : l.isEmpty = true ↔ l = [] := by
  cases l <;> simp

theorem registeredStateOf_renderpasses (s : NovaState) (ci : RenderPassCreateInfo)
    (acc : AttachAcc) (pb : PipeBuildAcc) :
    (registeredStateOf s ci acc pb).renderpasses =
      s.renderpasses ++ [newRenderpassOf s acc pb] := rfl

theorem registeredStateOf_metadatas (s : NovaState) (ci : RenderPassCreateInfo)
    (acc : AttachAcc) (pb : PipeBuildAcc) :
    (registeredStateOf s ci acc pb).renderpass_metadatas =
      emplaceL s.renderpass_metadatas ci.name
        { data := ci, pipeline_names := pb.pipelineNames } := rfl

theorem newRenderpassOf_id (s : NovaState) (acc : AttachAcc) (pb : PipeBuildAcc) :
    (newRenderpassOf s acc pb).id = s.renderpass_metadatas.length := rfl

theorem addRenderPass_cases (s : NovaState) (ci : RenderPassCreateInfo)
    (ps : List PipelineCreateInfo) (ms : List MaterialData)
    (s' : NovaState) (errs : List String)
    (h : addRenderPass s ci ps ms = some (s', errs)) :
    (∃ acc,
      foldAttach s ci.texture_outputs.length ci.name {} ci.texture_outputs = some acc ∧
      acc.errors ≠ [] ∧ s' = s ∧ errs = acc.errors) ∨
    (∃ acc pb,
      foldAttach s ci.texture_outputs.length ci.name {} ci.texture_outputs = some acc ∧
      acc.errors = [] ∧
      buildPipelines s.dynamic_textures s.builtin_buffers ms ci.name
        s.renderpasses.length (pipeAcc0 s acc) ps = some pb ∧
      s' = registeredStateOf s ci acc pb ∧
      errs = pb.errors) := by
  cases hfold : foldAttach s ci.texture_outputs.length ci.name {} ci.texture_outputs with
  | none =>
    simp only [addRenderPass, hfold] at h
    exact Option.noConfusion h
  | some acc =>
    simp only [addRenderPass, hfold] at h
    by_cases herr : acc.errors.isEmpty = true
    · right
      rw [if_pos herr] at h
      cases hbp : buildPipelines s.dynamic_textures s.builtin_buffers ms ci.name
          s.renderpasses.length (pipeAcc0 s acc) ps with
      | none => rw [hbp] at h; exact Option.noConfusion h
      | some pb =>
        rw [hbp] at h
        simp only [Option.some.injEq, Prod.mk.injEq] at h
        exact ⟨acc, pb, rfl, (list_isEmpty_true_iff _).mp herr, hbp, h.1.symm, h.2.symm⟩
    · left
      rw [if_neg herr] at h
      simp only [Option.some.injEq, Prod.mk.injEq] at h
      refine ⟨acc, rfl, ?_, h.1.symm, h.2.symm⟩
      intro hnil
      exact herr ((list_isEmpty_true_iff _).mpr hnil)

theorem addRenderPasses_extends (ps : List PipelineCreateInfo) (ms : List MaterialData) :
    ∀ (cis : List RenderPassCreateInfo) (s s' : NovaState),
      addRenderPasses ps ms s cis = some s' →
      (∃ t, s'.renderpasses = s.renderpasses ++ t) ∧
      (∃ t, s'.renderpass_metadatas = s.renderpass_metadatas ++ t) := by
  intro cis
  induction cis with
  | nil =>
    intro s s' h
    simp only [addRenderPasses, Option.some.injEq] at h
    subst h
    exact ⟨⟨[], by simp⟩, ⟨[], by simp⟩⟩
  | cons ci rest ih =>
    intro s s' h
    simp only [addRenderPasses] at h
    cases haddrp : addRenderPass s ci ps ms with
    | none => rw [haddrp] at h; exact Option.noConfusion h
    | some pr =>
      obtain ⟨s1, errs1⟩ := pr
      rw [haddrp] at h
      simp only at h
      obtain ⟨⟨t1, ht1⟩, ⟨t2, ht2⟩⟩ := ih s1 s' h
      rcases addRenderPass_cases s ci ps ms s1 errs1 haddrp with
        ⟨acc, hf, hne, hs1, he⟩ | ⟨acc, pb, hf, hz, hbp, hs1, he⟩
      · rw [hs1] at ht1 ht2
        exact ⟨⟨t1, ht1⟩, ⟨t2, ht2⟩⟩
      · constructor
        · refine ⟨newRenderpassOf s acc pb :: t1, ?_⟩
          rw [ht1, hs1, registeredStateOf_renderpasses, List.append_assoc,
            List.singleton_append]
        · obtain ⟨t3, ht3⟩ := emplaceL_extends s.renderpass_metadatas ci.name
            { data := ci, pipeline_names := pb.pipelineNames }
          refine ⟨t3 ++ t2, ?_⟩
          rw [ht2, hs1, registeredStateOf_metadatas, ht3, List.append_assoc]

/-- C9 (amended): over any sequence of `add_render_pass` calls whose
descriptors carry fresh, pairwise distinct names, the ids of the passes
the sequence registers are consecutive starting at the size of the
`renderpass_metadatas` table when the sequence begins — dense, monotonic,
duplicate-free, and unaffected by how many descriptors were rejected for
attachment errors.  They start at 0 only when that table starts empty; the
builtin UI pass registered at construction already occupies one entry, so
a renderpack's first pass receives id 1 in the running renderer. -/
theorem addRenderPasses_ids_dense (ps : List PipelineCreateInfo)
    (ms : List MaterialData) :
    ∀ (cis : List RenderPassCreateInfo) (s s' : NovaState),
      addRenderPasses ps ms s cis = some s' →
      (∀ ci ∈ cis, lookupL s.renderpass_metadatas ci.name = none) →
      ((cis.map (fun ci => ci.name)).Nodup) →
      (s'.renderpasses.drop s.renderpasses.length).map (fun rp => rp.id) =
        List.range' s.renderpass_metadatas.length
          (s'.renderpass_metadatas.length - s.renderpass_metadatas.length) := by
  intro cis
  induction cis with
  | nil =>
    intro s s' h _ _
    simp only [addRenderPasses, Option.some.injEq] at h
    subst h
    simp
  | cons ci rest ih =>
    intro s s' h hfresh hnd
    simp only [addRenderPasses] at h
    cases haddrp : addRenderPass s ci ps ms with
    | none => rw [haddrp] at h; exact Option.noConfusion h
    | some pr =>
      obtain ⟨s1, errs1⟩ := pr
      rw [haddrp] at h
      simp only at h
      rcases addRenderPass_cases s ci ps ms s1 errs1 haddrp with
        ⟨acc, hf, hne, hs1, he⟩ | ⟨acc, pb, hf, hz, hbp, hs1, he⟩
      · rw [hs1] at h
        exact ih s s' h (fun c hc => hfresh c (List.mem_cons_of_mem _ hc))
          (List.Nodup.of_cons hnd)
      · have hciname : lookupL s.renderpass_metadatas ci.name = none :=
          hfresh ci (List.mem_cons_self _ _)
        have hmd1 : s1.renderpass_metadatas = s.renderpass_metadatas ++
            [(ci.name, ({ data := ci, pipeline_names := pb.pipelineNames } :
              RenderpassMetadata))] := by
          rw [hs1, registeredStateOf_metadatas]
          exact emplaceL_of_lookup_none _ _ _ hciname
        have hrp1 : s1.renderpasses =
            s.renderpasses ++ [newRenderpassOf s acc pb] := by
          rw [hs1, registeredStateOf_renderpasses]
        have hfresh1 : ∀ c ∈ rest, lookupL s1.renderpass_metadatas c.name = none := by
          intro c hc
          rw [hmd1]
          refine lookupL_append_none _ _ _ (hfresh c (List.mem_cons_of_mem _ hc)) ?_
          have hne2 : c.name ≠ ci.name := by
            intro heq
            have : ci.name ∈ rest.map (fun x => x.name) := by
              rw [← heq]
              exact List.mem_map_of_mem _ hc
            exact (List.nodup_cons.mp hnd).1 this
          simp [lookupL, Ne.symm hne2]
        have hih := ih s1 s' h hfresh1 (List.Nodup.of_cons hnd)
        obtain ⟨⟨trp, htrp⟩, ⟨tmd, htmd⟩⟩ := addRenderPasses_extends ps ms rest s1 s' h
        have hdrop : s'.renderpasses.drop s.renderpasses.length =
            newRenderpassOf s acc pb :: trp := by
          rw [htrp, hrp1, List.append_assoc, List.singleton_append, List.drop_left]
        have hdrop1 : s'.renderpasses.drop s1.renderpasses.length = trp := by
          rw [htrp, List.drop_left]
        have hlen1 : s1.renderpass_metadatas.length =
            s.renderpass_metadatas.length + 1 := by
          rw [hmd1]
          simp
        have hlenle : s1.renderpass_metadatas.length ≤
            s'.renderpass_metadatas.length := by
          rw [htmd]
          simp
        rw [hdrop1] at hih
        rw [hlen1] at hih
        rw [hdrop]
        simp only [List.map_cons, newRenderpassOf_id]
        have harith : s'.renderpass_metadatas.length - s.renderpass_metadatas.length =
            (s'.renderpass_metadatas.length - (s.renderpass_metadatas.length + 1)) + 1 := by
          omega
        rw [harith, List.range'_succ, hih]

/-- Closed instantiation of `addRenderPasses_ids_dense`: starting from a
renderer with no registered passes, a rejected descriptor (mismatched
attachment sizes) followed by a registered one yields exactly the id
sequence `[0]` for the registered passes. -/
theorem addRenderPasses_ids_dense_witness :
    ∃ s', addRenderPasses [] [] twoSizeState [twoSizePass, okPass] = some s' ∧
      (s'.renderpasses.drop twoSizeState.renderpasses.length).map (fun rp => rp.id) =
        List.range' twoSizeState.renderpass_metadatas.length
          (s'.renderpass_metadatas.length - twoSizeState.renderpass_metadatas.length) := by
  cases heval : addRenderPasses [] [] twoSizeState [twoSizePass, okPass] with
  | none => exact absurd heval (by decide)
  | some s' =>
    exact ⟨s', rfl,
      addRenderPasses_ids_dense [] [] [twoSizePass, okPass] twoSizeState s' heval
        (by decide) (by decide)⟩

theorem processAttachment_facts (s : NovaState) (n : Nat) (pn : String)
    (acc : AttachAcc) (a : TextureAttachmentInfo)
    (hres : a.name ≠ backbufferName →
      (∃ img, lookupL s.dynamic_textures a.name = some img) ∧
      (∃ info, lookupL s.dynamic_texture_infos a.name = some info)) :
    ∃ acc', processAttachment s n pn acc a = some acc' ∧
      (∃ e, acc'.errors = acc.errors ++ e) ∧
      (acc.fbSize.1 > 0 → acc'.fbSize = acc.fbSize) ∧
      (a.name = backbufferName → n ≠ 1 → acc'.errors ≠ []) ∧
      (∀ info, a.name ≠ backbufferName →
        lookupL s.dynamic_texture_infos a.name = some info →
        acc.fbSize.1 > 0 → info.size ≠ acc.fbSize → acc'.errors ≠ []) ∧
      (acc'.rpWrites = true ↔
        (acc.rpWrites = true ∨ (a.name = backbufferName ∧ n = 1))) ∧
      (acc'.wtb = true ↔ (acc.wtb = true ∨ a.name = backbufferName)) := by
  by_cases hbb : a.name = backbufferName
  · by_cases hn : n = 1
    · refine ⟨{ acc with wtb := true, rpWrites := true }, ?_, ⟨[], by simp⟩, fun _ => rfl,
        fun _ hne => absurd hn hne, fun info hne _ _ _ => absurd hbb hne, ?_, ?_⟩
      · simp [processAttachment, hbb, hn]
      · simp [hbb, hn]
      · simp [hbb]
    · refine ⟨{ acc with wtb := true, errors := acc.errors ++ [backbufferWriteErr pn] },
        ?_, ⟨[backbufferWriteErr pn], rfl⟩, fun _ => rfl, fun _ _ => by simp,
        fun info hne _ _ _ => absurd hbb hne, ?_, ?_⟩
      · simp [processAttachment, hbb, hn]
      · simp [hbb, hn]
      · simp [hbb]
  · obtain ⟨⟨img, himg⟩, ⟨info0, hinfo⟩⟩ := hres hbb
    by_cases hpos : acc.fbSize.1 > 0
    · by_cases hmm : info0.size.1 ≠ acc.fbSize.1 ∨ info0.size.2 ≠ acc.fbSize.2
      · refine ⟨{ acc with
            colors := acc.colors ++ [img]
            errors := acc.errors ++ [sizeMismatchErr a.name pn] },
          ?_, ⟨[sizeMismatchErr a.name pn], rfl⟩, fun _ => rfl,
          fun hh => absurd hh hbb, fun info _ _ _ _ => by simp, ?_, ?_⟩
        · simp [processAttachment, hbb, himg, hinfo, hpos, hmm]
        · simp [hbb]
        · simp [hbb]
      · refine ⟨{ acc with colors := acc.colors ++ [img] },
          ?_, ⟨[], by simp⟩, fun _ => rfl, fun hh => absurd hh hbb, ?_, ?_, ?_⟩
        · simp [processAttachment, hbb, himg, hinfo, hpos, hmm]
        · intro info _ hlook _ hdiff
          rw [hinfo] at hlook
          have hinfo0 : info = info0 := (Option.some.inj hlook).symm
          subst hinfo0
          push_neg at hmm
          exact absurd (Prod.ext hmm.1 hmm.2) hdiff
        · simp [hbb]
        · simp [hbb]
    · refine ⟨{ acc with colors := acc.colors ++ [img], fbSize := info0.size },
        ?_, ⟨[], by simp⟩, fun hh => absurd hh hpos, fun hh => absurd hh hbb,
        fun info _ _ hh _ => absurd hh hpos, ?_, ?_⟩
      · simp [processAttachment, hbb, himg, hinfo, hpos]
      · simp [hbb]
      · simp [hbb]

theorem foldAttach_facts (s : NovaState) (n : Nat) (pn : String) :
    ∀ (l : List TextureAttachmentInfo) (acc : AttachAcc),
      (∀ att ∈ l, att.name ≠ backbufferName →
        (∃ img, lookupL s.dynamic_textures att.name = some img) ∧
        (∃ info, lookupL s.dynamic_texture_infos att.name = some info)) →
      ∃ acc', foldAttach s n pn acc l = some acc' ∧
        (∃ e, acc'.errors = acc.errors ++ e) ∧
        (acc.fbSize.1 > 0 → acc'.fbSize = acc.fbSize) ∧
        (backbufferName ∈ l.map (fun a => a.name) → n ≠ 1 → acc'.errors ≠ []) ∧
        (∀ att ∈ l, ∀ info, att.name ≠ backbufferName →
          lookupL s.dynamic_texture_infos att.name = some info →
          acc.fbSize.1 > 0 → info.size ≠ acc.fbSize → acc'.errors ≠ []) ∧
        (acc'.rpWrites = true ↔
          (acc.rpWrites = true ∨
            (backbufferName ∈ l.map (fun a => a.name) ∧ n = 1))) ∧
        (acc'.wtb = true ↔
          (acc.wtb = true ∨ backbufferName ∈ l.map (fun a => a.name))) := by
  intro l
  induction l with
  | nil =>
    intro acc _
    exact ⟨acc, rfl, ⟨[], by simp⟩, fun _ => rfl, by simp, by simp, by simp, by simp⟩
  | cons a rest ih =>
    intro acc hres
    obtain ⟨acc1, hstep, ⟨e1, he1⟩, hfb1, hbberr1, hmm1, hrpw1, hwtb1⟩ :=
      processAttachment_facts s n pn acc a
        (fun hne => hres a (List.mem_cons_self _ _) hne)
    obtain ⟨accf, hfold, ⟨e2, he2⟩, hfb2, hbberr2, hmm2, hrpw2, hwtb2⟩ :=
      ih acc1 (fun att hatt hne => hres att (List.mem_cons_of_mem _ hatt) hne)
    have herr_pers : acc1.errors ≠ [] → accf.errors ≠ [] := by
      intro hne hnil
      rw [he2] at hnil
      exact hne (List.append_eq_nil.mp hnil).1
    refine ⟨accf, ?_, ⟨e1 ++ e2, ?_⟩, ?_, ?_, ?_, ?_, ?_⟩
    · simp only [foldAttach, hstep]
      exact hfold
    · rw [he2, he1, List.append_assoc]
    · intro hpos
      have h1 := hfb1 hpos
      have hpos1 : acc1.fbSize.1 > 0 := by rw [h1]; exact hpos
      rw [hfb2 hpos1, h1]
    · intro hmem hn
      simp only [List.map_cons, List.mem_cons] at hmem
      rcases hmem with hmem | hmem
      · exact herr_pers (hbberr1 hmem.symm hn)
      · exact hbberr2 hmem hn
    · intro att hatt info hne hlook hpos hdiff
      rcases List.mem_cons.mp hatt with hatt1 | hatt1
      · subst hatt1
        exact herr_pers (hmm1 info hne hlook hpos hdiff)
      · have h1 := hfb1 hpos
        have hpos1 : acc1.fbSize.1 > 0 := by rw [h1]; exact hpos
        refine hmm2 att hatt1 info hne hlook hpos1 ?_
        rw [h1]
        exact hdiff
    · rw [hrpw2, hrpw1]
      simp only [List.map_cons, List.mem_cons]
      constructor
      · rintro ((h | ⟨h1, h2⟩) | ⟨h1, h2⟩)
        · exact Or.inl h
        · exact Or.inr ⟨Or.inl h1.symm, h2⟩
        · exact Or.inr ⟨Or.inr h1, h2⟩
      · rintro (h | ⟨(h1 | h1), h2⟩)
        · exact Or.inl (Or.inl h)
        · exact Or.inl (Or.inr ⟨h1.symm, h2⟩)
        · exact Or.inr ⟨h1, h2⟩
    · rw [hwtb2, hwtb1]
      simp only [List.map_cons, List.mem_cons]
      constructor
      · rintro ((h | h) | h)
        · exact Or.inl h
        · exact Or.inr (Or.inl h.symm)
        · exact Or.inr (Or.inr h)
      · rintro (h | (h | h))
        · exact Or.inl (Or.inl h)
        · exact Or.inl (Or.inr h.symm)
        · exact Or.inr h

/-- C5 (amended): a pass declaring two or more non-backbuffer texture
outputs with differing pixel sizes is rejected — `add_render_pass` logs a
size-mismatch error and returns with the state unchanged (no backend
renderpass created, nothing registered) — provided the first output's
pixel width is positive, since the code only compares sizes once
`framebuffer_size.x > 0` (a zero-width first output silently becomes no
baseline, see the counterexample). -/
theorem addRenderPass_size_mismatch_rejects (s : NovaState)
    (ci : RenderPassCreateInfo) (ps : List PipelineCreateInfo)
    (ms : List MaterialData) (att0 : TextureAttachmentInfo)
    (restAtts : List TextureAttachmentInfo)
    (hout : ci.texture_outputs = att0 :: restAtts)
    (hnb : ∀ att ∈ ci.texture_outputs, att.name ≠ backbufferName)
    (hres : ∀ att ∈ ci.texture_outputs,
      (∃ img, lookupL s.dynamic_textures att.name = some img) ∧
      (∃ info, lookupL s.dynamic_texture_infos att.name = some info))
    (info0 : TextureCreateInfo)
    (hinfo0 : lookupL s.dynamic_texture_infos att0.name = some info0)
    (hpos : info0.size.1 > 0)
    (hdiff : ∃ att ∈ restAtts, ∃ info,
      lookupL s.dynamic_texture_infos att.name = some info ∧ info.size ≠ info0.size) :
    ∃ errs, addRenderPass s ci ps ms = some (s, errs) ∧ errs ≠ [] := by
  have hmem0 : att0 ∈ ci.texture_outputs := by
    rw [hout]
    exact List.mem_cons_self _ _
  have hnb0 : att0.name ≠ backbufferName := hnb att0 hmem0
  obtain ⟨⟨img0, himg0⟩, _⟩ := hres att0 hmem0
  have hstep : processAttachment s ci.texture_outputs.length ci.name {} att0 =
      some { colors := [img0], fbSize := info0.size } := by
    simp [processAttachment, hnb0, himg0, hinfo0]
  obtain ⟨accf, hfold, ⟨e2, he2⟩, hfb2, hbberr2, hmm2, hrpw2, hwtb2⟩ :=
    foldAttach_facts s ci.texture_outputs.length ci.name restAtts
      { colors := [img0], fbSize := info0.size }
      (fun att hatt _ =>
        hres att (by rw [hout]; exact List.mem_cons_of_mem _ hatt))
  obtain ⟨attw, hattw, infow, hlookw, hdiffw⟩ := hdiff
  have herrne : accf.errors ≠ [] := by
    refine hmm2 attw hattw infow
      (hnb attw (by rw [hout]; exact List.mem_cons_of_mem _ hattw)) hlookw hpos ?_
    exact hdiffw
  have hlen2 : ci.texture_outputs.length = (att0 :: restAtts).length := by
    rw [hout]
  have hfoldfull : foldAttach s ci.texture_outputs.length ci.name {}
      ci.texture_outputs = some accf := by
    rw [hout, ← hlen2]
    simp only [foldAttach, hstep]
    exact hfold
  refine ⟨accf.errors, ?_, herrne⟩
  have herr2 : ¬(accf.errors.isEmpty = true) :=
    fun hh => herrne ((list_isEmpty_true_iff _).mp hh)
  simp only [addRenderPass, hfoldfull]
  rw [if_neg herr2]

/-- Closed instantiation of `addRenderPass_size_mismatch_rejects`: a pass
with a 256 by 256 and a 512 by 512 output is rejected with a size-mismatch
error, and neither a renderpass nor any metadata is registered. -/
theorem addRenderPass_size_mismatch_rejects_witness :
    ∃ errs, addRenderPass twoSizeState twoSizePass [] [] =
      some (twoSizeState, errs) ∧ errs ≠ [] := by
  refine addRenderPass_size_mismatch_rejects twoSizeState twoSizePass [] []
    { name := "small_tex" } [{ name := "big_tex" }] (by decide) (by decide) ?_
    ⟨"small_tex", (256, 256)⟩ (by decide) (by decide) ?_
  · intro att hatt
    have hatt2 : att = ({ name := "small_tex" } : TextureAttachmentInfo) ∨
        att = ({ name := "big_tex" } : TextureAttachmentInfo) := by
      simpa [twoSizePass] using hatt
    rcases hatt2 with h | h
    · subst h
      exact ⟨⟨0, by decide⟩, ⟨⟨"small_tex", (256, 256)⟩, by decide⟩⟩
    · subst h
      exact ⟨⟨1, by decide⟩, ⟨⟨"big_tex", (512, 512)⟩, by decide⟩⟩
  · exact ⟨{ name := "big_tex" }, by decide, ⟨"big_tex", (512, 512)⟩, by decide, by decide⟩

/-- C10: when every non-backbuffer output resolves in the dynamic-texture
tables, (a) a pass declaring the backbuffer among two or more texture
outputs is rejected: `add_render_pass` records an attachment error and
leaves the state untouched; and (b) a registered pass is marked
`writes_to_backbuffer` exactly when the backbuffer is its sole texture
output, and a so-marked pass gets no framebuffer. -/
theorem addRenderPass_backbuffer_exclusive (s : NovaState)
    (ci : RenderPassCreateInfo) (ps : List PipelineCreateInfo)
    (ms : List MaterialData)
    (hres : ∀ att ∈ ci.texture_outputs, att.name ≠ backbufferName →
      (∃ img, lookupL s.dynamic_textures att.name = some img) ∧
      (∃ info, lookupL s.dynamic_texture_infos att.name = some info)) :
    ((backbufferName ∈ ci.texture_outputs.map (fun a => a.name) ∧
        2 ≤ ci.texture_outputs.length) →
      ∃ errs, addRenderPass s ci ps ms = some (s, errs) ∧ errs ≠ []) ∧
    (∀ s' errs rp, addRenderPass s ci ps ms = some (s', errs) →
      s'.renderpasses = s.renderpasses ++ [rp] →
      ((rp.writes_to_backbuffer = true ↔
          ci.texture_outputs.map (fun a => a.name) = [backbufferName]) ∧
        (rp.writes_to_backbuffer = true → rp.framebuffer = none))) := by
  obtain ⟨accf, hfold, ⟨e0, he0⟩, hfb, hbberr, hmm, hrpw, hwtb⟩ :=
    foldAttach_facts s ci.texture_outputs.length ci.name ci.texture_outputs {} hres
  constructor
  · rintro ⟨hmem, hlen⟩
    have hne1 : ci.texture_outputs.length ≠ 1 := by omega
    have herrne : accf.errors ≠ [] := hbberr hmem hne1
    refine ⟨accf.errors, ?_, herrne⟩
    have herr2 : ¬(accf.errors.isEmpty = true) :=
      fun hh => herrne ((list_isEmpty_true_iff _).mp hh)
    simp only [addRenderPass, hfold]
    rw [if_neg herr2]
  · intro s' errs rp h happ
    rcases addRenderPass_cases s ci ps ms s' errs h with
      ⟨acc, hf, hne, hs1, he⟩ | ⟨acc, pb, hf, hz, hbp, hs1, he⟩
    · exfalso
      rw [hs1] at happ
      have := congrArg List.length happ
      simp at this
    · rw [hs1, registeredStateOf_renderpasses] at happ
      have h2 := List.append_cancel_left happ
      simp only [List.cons.injEq, and_true] at h2
      have hacc : accf = acc := by
        rw [hfold] at hf
        exact Option.some.inj hf
      subst hacc
      have hwflag : rp.writes_to_backbuffer = accf.rpWrites := by
        rw [← h2]
        rfl
      have hfbeq : rp.framebuffer =
          (if accf.wtb then none else some (s.next_handle + 1)) := by
        rw [← h2]
        rfl
      constructor
      · rw [hwflag, hrpw]
        constructor
        · rintro (hfalse | ⟨hmem, hn1⟩)
          · exact absurd hfalse (by decide)
          · cases hnames : ci.texture_outputs.map (fun a => a.name) with
            | nil =>
              rw [hnames] at hmem
              simp at hmem
            | cons x xs =>
              have hlen : (ci.texture_outputs.map (fun a => a.name)).length = 1 := by
                rw [List.length_map]
                exact hn1
              rw [hnames] at hlen hmem
              have hxs : xs = [] := by
                simpa using hlen
              subst hxs
              have hx : backbufferName = x := by
                simpa using hmem
              rw [← hx]
        · intro hnames
          refine Or.inr ⟨?_, ?_⟩
          · rw [hnames]
            exact List.mem_singleton.mpr rfl
          · have := congrArg List.length hnames
            rw [List.length_map] at this
            simpa using this
      · intro hw
        rw [hwflag] at hw
        have hmem : backbufferName ∈ ci.texture_outputs.map (fun a => a.name) := by
          rcases hrpw.mp hw with hfalse | ⟨hmem, _⟩
          · exact absurd hfalse (by decide)
          · exact hmem
        have hwtbtrue : accf.wtb = true := hwtb.mpr (Or.inr hmem)
        rw [hfbeq, if_pos hwtbtrue]

/-- Closed instantiation of `addRenderPass_backbuffer_exclusive`: a pass
writing the backbuffer and one more texture is rejected with an attachment
error and registers nothing. -/
theorem addRenderPass_backbuffer_exclusive_witness :
    (backbufferName ∈ bbPlusPass.texture_outputs.map (fun a => a.name) ∧
      2 ≤ bbPlusPass.texture_outputs.length) ∧
    ∃ errs, addRenderPass twoSizeState bbPlusPass [] [] =
      some (twoSizeState, errs) ∧ errs ≠ [] := by
  refine ⟨by decide, (addRenderPass_backbuffer_exclusive twoSizeState bbPlusPass [] []
    ?_).1 (by decide)⟩
  intro att hatt hne
  have hatt2 : att = ({ name := backbufferName } : TextureAttachmentInfo) ∨
      att = ({ name := "big_tex" } : TextureAttachmentInfo) := by
    simpa [bbPlusPass] using hatt
  rcases hatt2 with h | h
  · subst h
    exact absurd rfl hne
  · subst h
    exact ⟨⟨1, by decide⟩, ⟨⟨"big_tex", (512, 512)⟩, by decide⟩⟩

theorem bindData_char (dynTex builtinBufs : List (String × Nat)) (sets : List Nat)
    (descs : BMap) :
    ∀ (bindings : List (String × String)),
      (∀ pr ∈ bindings, ∃ d, lookupBMap descs pr.1 = some d ∧ d.set < sets.length) →
      bindDataToMaterialDescriptorSets dynTex builtinBufs sets descs bindings =
        some (bindings.filterMap (resolveBinding dynTex builtinBufs sets descs),
          (bindings.filter (unresolvedPair dynTex builtinBufs)).map
            (fun pr => unknownResourceErr pr.2)) := by
  intro bindings
  induction bindings with
  | nil => intro _; rfl
  | cons pr rest ih =>
    intro hh
    obtain ⟨dn, rn⟩ := pr
    obtain ⟨dsc, hdsc, hset⟩ := hh (dn, rn) (List.mem_cons_self _ _)
    obtain ⟨sh, hsh⟩ : ∃ sh, sets[dsc.set]? = some sh :=
      ⟨_, List.getElem?_eq_getElem hset⟩
    have hrest := ih (fun q hq => hh q (List.mem_cons_of_mem _ hq))
    cases hdyn : lookupL dynTex rn with
    | some img =>
      have hres : resolveBinding dynTex builtinBufs sets descs (dn, rn) =
          some { set := sh, first_binding := dsc.binding,
                 ty := DescriptorType.combinedImageSampler, resource := img } := by
        simp [resolveBinding, hdsc, hsh, hdyn]
      have hunres : unresolvedPair dynTex builtinBufs (dn, rn) = false := by
        simp [unresolvedPair, hdyn]
      simp only [bindDataToMaterialDescriptorSets, hdsc, hsh, hrest, hdyn,
        List.filterMap_cons, hres, List.filter_cons, hunres]
      simp
    | none =>
      cases hbuf : lookupL builtinBufs rn with
      | some buf =>
        have hres : resolveBinding dynTex builtinBufs sets descs (dn, rn) =
            some { set := sh, first_binding := dsc.binding,
                   ty := DescriptorType.uniformBuffer, resource := buf } := by
          simp [resolveBinding, hdsc, hsh, hdyn, hbuf]
        have hunres : unresolvedPair dynTex builtinBufs (dn, rn) = false := by
          simp [unresolvedPair, hbuf]
        simp only [bindDataToMaterialDescriptorSets, hdsc, hsh, hrest, hdyn, hbuf,
          List.filterMap_cons, hres, List.filter_cons, hunres]
        simp
      | none =>
        have hres : resolveBinding dynTex builtinBufs sets descs (dn, rn) = none := by
          simp [resolveBinding, hdsc, hsh, hdyn, hbuf]
        have hunres : unresolvedPair dynTex builtinBufs (dn, rn) = true := by
          simp [unresolvedPair, hdyn, hbuf]
        simp only [bindDataToMaterialDescriptorSets, hdsc, hsh, hrest, hdyn, hbuf,
          List.filterMap_cons, hres, List.filter_cons, hunres]
        simp

/-- C6: for a material pass whose binding names all occur in the pipeline
interface (with in-range set indices), binding the declared
{binding name → resource name} pairs resolves each pair independently:
the produced writes are exactly the per-pair resolutions in order — a
name found in the dynamic-texture table becomes a combined-image-sampler
write (that table is consulted first), a name found only among the
builtin buffers becomes a uniform-buffer write — and a name found in
neither is reported with an error while only that pair's write is
skipped; every other pair's write is still produced. -/
theorem bindData_resolution_order_and_skip (dynTex builtinBufs : List (String × Nat))
    (sets : List Nat) (descs : BMap) (bindings : List (String × String))
    (hdesc : ∀ pr ∈ bindings, ∃ d, lookupBMap descs pr.1 = some d ∧
      d.set < sets.length) :
    ∃ writes errs,
      bindDataToMaterialDescriptorSets dynTex builtinBufs sets descs bindings =
        some (writes, errs) ∧
      writes = bindings.filterMap (resolveBinding dynTex builtinBufs sets descs) ∧
      errs = (bindings.filter (unresolvedPair dynTex builtinBufs)).map
        (fun pr => unknownResourceErr pr.2) ∧
      (∀ pr ∈ bindings, unresolvedPair dynTex builtinBufs pr = true →
        unknownResourceErr pr.2 ∈ errs ∧
        resolveBinding dynTex builtinBufs sets descs pr = none) ∧
      (∀ pr ∈ bindings, ∀ img, lookupL dynTex pr.2 = some img →
        ∀ d, lookupBMap descs pr.1 = some d → ∀ sh, sets[d.set]? = some sh →
        ({ set := sh, first_binding := d.binding,
           ty := DescriptorType.combinedImageSampler, resource := img } :
          DescriptorSetWrite) ∈ writes) ∧
      (∀ pr ∈ bindings, lookupL dynTex pr.2 = none →
        ∀ buf, lookupL builtinBufs pr.2 = some buf →
        ∀ d, lookupBMap descs pr.1 = some d → ∀ sh, sets[d.set]? = some sh →
        ({ set := sh, first_binding := d.binding,
           ty := DescriptorType.uniformBuffer, resource := buf } :
          DescriptorSetWrite) ∈ writes) := by
  refine ⟨bindings.filterMap (resolveBinding dynTex builtinBufs sets descs),
    (bindings.filter (unresolvedPair dynTex builtinBufs)).map
      (fun pr => unknownResourceErr pr.2),
    bindData_char dynTex builtinBufs sets descs bindings hdesc, rfl, rfl, ?_, ?_, ?_⟩
  · intro pr hpr hunres
    constructor
    · exact List.mem_map_of_mem _ (List.mem_filter.mpr ⟨hpr, hunres⟩)
    · simp only [unresolvedPair, Bool.and_eq_true, Option.isNone_iff_eq_none] at hunres
      rcases hlk : lookupBMap descs pr.1 with _ | d
      · simp [resolveBinding, hlk]
      · rcases hs : sets[d.set]? with _ | sh
        · simp [resolveBinding, hlk, hs]
        · simp [resolveBinding, hlk, hs, hunres.1, hunres.2]
  · intro pr hpr img himg d hd sh hsh
    refine List.mem_filterMap.mpr ⟨pr, hpr, ?_⟩
    simp [resolveBinding, hd, hsh, himg]
  · intro pr hpr hdyn buf hbuf d hd sh hsh
    refine List.mem_filterMap.mpr ⟨pr, hpr, ?_⟩
    simp [resolveBinding, hd, hsh, hdyn, hbuf]

/-- Closed instantiation of `bindData_resolution_order_and_skip` at the
fixture tables: `"Globals"` binds the builtin buffer, `"SceneTex"` binds
the dynamic texture, `"Missing"` only logs an error and is skipped. -/
theorem bindData_resolution_order_and_skip_witness :
    (∀ pr ∈ bindPairs, ∃ d, lookupBMap bindDescs pr.1 = some d ∧
      d.set < ([30] : List Nat).length) ∧
    ∃ writes errs,
      bindDataToMaterialDescriptorSets bindDyn bindBuiltin [30] bindDescs bindPairs =
        some (writes, errs) ∧
      writes = bindPairs.filterMap (resolveBinding bindDyn bindBuiltin [30] bindDescs) ∧
      errs = (bindPairs.filter (unresolvedPair bindDyn bindBuiltin)).map
        (fun pr => unknownResourceErr pr.2) ∧
      (∀ pr ∈ bindPairs, unresolvedPair bindDyn bindBuiltin pr = true →
        unknownResourceErr pr.2 ∈ errs ∧
        resolveBinding bindDyn bindBuiltin [30] bindDescs pr = none) ∧
      (∀ pr ∈ bindPairs, ∀ img, lookupL bindDyn pr.2 = some img →
        ∀ d, lookupBMap bindDescs pr.1 = some d → ∀ sh, ([30] : List Nat)[d.set]? = some sh →
        ({ set := sh, first_binding := d.binding,
           ty := DescriptorType.combinedImageSampler, resource := img } :
          DescriptorSetWrite) ∈ writes) ∧
      (∀ pr ∈ bindPairs, lookupL bindDyn pr.2 = none →
        ∀ buf, lookupL bindBuiltin pr.2 = some buf →
        ∀ d, lookupBMap bindDescs pr.1 = some d → ∀ sh, ([30] : List Nat)[d.set]? = some sh →
        ({ set := sh, first_binding := d.binding,
           ty := DescriptorType.uniformBuffer, resource := buf } :
          DescriptorSetWrite) ∈ writes) := by
  have hh : ∀ pr ∈ bindPairs, ∃ d, lookupBMap bindDescs pr.1 = some d ∧
      d.set < ([30] : List Nat).length := by
    intro pr hpr
    have hcases : pr = ("Globals", "PerFrameData") ∨ pr = ("SceneTex", "a_tex") ∨
        pr = ("Missing", "nope") := by
      simpa [bindPairs] using hpr
    rcases hcases with h | h | h <;> subst h
    · exact ⟨mkTestBinding 0 0 DescriptorType.uniformBuffer, by decide, by decide⟩
    · exact ⟨mkTestBinding 0 1 DescriptorType.combinedImageSampler, by decide, by decide⟩
    · exact ⟨mkTestBinding 0 2 DescriptorType.uniformBuffer, by decide, by decide⟩
  exact ⟨hh, bindData_resolution_order_and_skip bindDyn bindBuiltin [30] bindDescs
    bindPairs hh⟩
